import Mathlib

/-!
Verification of the `PythonScriptExporter` from `src/XlsxMapper/src/exporter_py.py`.

The exporter converts an in-memory workbook description (sheets, cells,
dimensions, merges, image assets) into generated Python modules.  We give a
shallow embedding of the exporter: Python scalar values become the inductive
type `PyVal`, dictionaries become association lists (Python dicts preserve
insertion order, which the association lists mirror), file writes become an
ordered list of `(filename, contents)` pairs, and exceptions (`KeyError`,
attribute errors) become `Except String`.

Modelling notes, fixed at the boundary of the embedding:
* numeric cell attribute values are modelled as integers (the claims under
  study do not involve floating point);
* dictionary keys that the code sorts or compares are strings, matching the
  data model of the exporter (attribute names, border side names);
* `str.isalnum` is modelled by `Char.isAlphanum` (ASCII alphanumerics), and
  Python `repr` of strings is modelled for printable ASCII text;
* the MD5 hash used by `_generate_style_id` is implemented in full
  (`md5HexChars` below), so content hashes are computed exactly as
  `hashlib.md5(...).hexdigest()`.
-/

/-- Python values as they flow through the exporter: `None`, booleans,
integers, strings, and (string-keyed) dictionaries. -/
inductive PyVal where
  | none : PyVal
  | bool : Bool → PyVal
  | int : Int → PyVal
  | str : String → PyVal
  | dict : List (String × PyVal) → PyVal

/-- A Python dictionary with string keys (insertion ordered). -/
abbrev PyDict := List (String × PyVal)

/-- Lookup in an association list, mirroring Python `dict.get` /
`dict.__getitem__` (keys are unique in real dicts; the first hit wins). -/
def lookupAssoc {α : Type} (m : List (String × α)) (k : String) : Option α :=
  match m with
  | [] => Option.none
  | (k', v) :: t => if k' = k then some v else lookupAssoc t k

/-- Setting a key in an association list, mirroring Python dict assignment:
an existing key keeps its position, a new key is appended at the end. -/
def assocSet {α : Type} (m : List (String × α)) (k : String) (v : α) :
    List (String × α) :=
  match m with
  | [] => [(k, v)]
  | (k', v') :: t => if k' = k then (k, v) :: t else (k', v') :: assocSet t k v

/-- Python truthiness of the values in `PyVal`. -/
def pyTruthy : PyVal → Bool
  | PyVal.none => false
  | PyVal.bool b => b
  | PyVal.int n => n != 0
  | PyVal.str s => s != ""
  | PyVal.dict d => !d.isEmpty

/-- Truthiness of the result of `dict.get(key)` (absent key gives `None`). -/
def pyTruthyOpt (o : Option PyVal) : Bool :=
  match o with
  | some v => pyTruthy v
  | Option.none => false

mutual
/-- Python `==` on the embedded values (fuelled so the recursion is
structural): `True == 1`, dictionaries compare by key lookup; strings and
`None` compare structurally. -/
def pyEqFuel : Nat → PyVal → PyVal → Bool
  | 0, _, _ => false
  | _ + 1, PyVal.none, PyVal.none => true
  | _ + 1, PyVal.bool a, PyVal.bool b => a == b
  | _ + 1, PyVal.bool a, PyVal.int n => (if a then (1 : Int) else 0) == n
  | _ + 1, PyVal.int n, PyVal.bool b => n == (if b then (1 : Int) else 0)
  | _ + 1, PyVal.int n, PyVal.int m => n == m
  | _ + 1, PyVal.str s, PyVal.str t => s == t
  | fuel + 1, PyVal.dict d, PyVal.dict e =>
      d.length == e.length && pyEqEntriesFuel fuel d e
  | _ + 1, _, _ => false

/-- Each entry of the first dictionary must be present (with equal value)
in the second. -/
def pyEqEntriesFuel : Nat → List (String × PyVal) → List (String × PyVal) → Bool
  | 0, _, _ => false
  | _ + 1, [], _ => true
  | fuel + 1, (k, v) :: t, e =>
      (match lookupAssoc e k with
       | some w => pyEqFuel fuel v w
       | Option.none => false) && pyEqEntriesFuel fuel t e
end

mutual
/-- Structural size of a value, used as fuel bound for `pyEq`. -/
def pySize : PyVal → Nat
  | PyVal.dict d => pySizeEntries d + 1
  | _ => 1

/-- Structural size of dictionary entries. -/
def pySizeEntries : List (String × PyVal) → Nat
  | [] => 1
  | (_, v) :: t => pySize v + pySizeEntries t + 1
end

/-- Python `==`; `pySize` bounds the recursion depth, so the fuel never runs
out on the left argument. -/
def pyEq (a b : PyVal) : Bool := pyEqFuel (pySize a) a b

/-- Decimal digits of `n`, most significant first, with explicit fuel so the
recursion is structural.  `decCharsAux n n` renders any positive `n`. -/
def decCharsAux : Nat → Nat → List Char
  | 0, _ => []
  | _ + 1, 0 => []
  | fuel + 1, n + 1 =>
      decCharsAux fuel ((n + 1) / 10) ++ [Nat.digitChar ((n + 1) % 10)]

/-- Decimal rendering of a natural number (Python `str` of a nonnegative
int). -/
def decStr (n : Nat) : String :=
  if n = 0 then "0" else String.mk (decCharsAux n n)

/-- Python `str` of an integer. -/
def intStr (n : Int) : String :=
  if n < 0 then "-" ++ decStr n.natAbs else decStr n.natAbs

/-- Value of a decimal digit character. -/
def charVal (c : Char) : Nat := c.toNat - 48

/-- Parse a digit string back into a number (left fold, leading zeros are
harmless). -/
def parseChars (l : List Char) : Nat :=
  l.foldl (fun a c => a * 10 + charVal c) 0

theorem parseChars_append (l₁ l₂ : List Char) :
    parseChars (l₁ ++ l₂) =
      (l₂.foldl (fun a c => a * 10 + charVal c) (parseChars l₁)) := by
  simp [parseChars, List.foldl_append]

theorem charVal_digitChar {m : Nat} (h : m < 10) :
    charVal (Nat.digitChar m) = m := by
  interval_cases m <;> decide

theorem parseChars_decCharsAux :
    ∀ fuel n, n ≤ fuel → parseChars (decCharsAux fuel n) = n := by
  intro fuel
  induction fuel with
  | zero =>
      intro n hn
      have h0 : n = 0 := Nat.le_zero.mp hn
      subst h0; rfl
  | succ f ih =>
      intro n hn
      match n with
      | 0 => rfl
      | m + 1 =>
          have hdiv : (m + 1) / 10 ≤ f := by
            have h1 : (m + 1) / 10 < m + 1 := Nat.div_lt_self (Nat.succ_pos m) (by decide)
            omega
          rw [decCharsAux, parseChars_append, ih _ hdiv]
          simp only [List.foldl_cons, List.foldl_nil,
            charVal_digitChar (Nat.mod_lt (m + 1) (by decide))]
          omega

theorem parseChars_decStr (n : Nat) : parseChars (decStr n).data = n := by
  by_cases h : n = 0
  · subst h; decide
  · simp only [decStr, if_neg h]
    exact parseChars_decCharsAux n n (Nat.le_refl n)

/-- Python's `f"{n:03d}"`: decimal rendering zero-padded to width 3. -/
def pad3 (n : Nat) : String :=
  let s := decStr n
  if s.length < 3 then String.mk (List.replicate (3 - s.length) '0') ++ s else s

theorem parseChars_replicate_zero (k : Nat) (l : List Char) :
    parseChars (List.replicate k '0' ++ l) = parseChars l := by
  induction k with
  | zero => simp
  | succ m ih =>
      have : List.replicate (m + 1) '0' ++ l = '0' :: (List.replicate m '0' ++ l) := by
        simp [List.replicate_succ]
      rw [this]
      simpa [parseChars, charVal] using ih

theorem parseChars_pad3 (n : Nat) : parseChars (pad3 n).data = n := by
  unfold pad3
  by_cases h : (decStr n).length < 3
  · simp only [if_pos h]
    have hdata : (String.mk (List.replicate (3 - (decStr n).length) '0') ++ decStr n).data
        = List.replicate (3 - (decStr n).length) '0' ++ (decStr n).data := by
      simp
    rw [hdata, parseChars_replicate_zero]
    exact parseChars_decStr n
  · simp only [if_neg h]
    exact parseChars_decStr n

theorem pad3_injective {n m : Nat} (h : pad3 n = pad3 m) : n = m := by
  have := congrArg (fun s => parseChars s.data) h
  simpa [parseChars_pad3] using this

/-- Lexicographic (code-point) comparison of character lists, mirroring
Python string `<=`. -/
def lexLe : List Char → List Char → Bool
  | [], _ => true
  | _ :: _, [] => false
  | a :: as, b :: bs =>
      if a.toNat < b.toNat then true
      else if b.toNat < a.toNat then false
      else lexLe as bs

/-- Python `<=` on strings (code-point lexicographic order). -/
def pyStrLe (a b : String) : Bool := lexLe a.data b.data

theorem lexLe_total (a b : List Char) : lexLe a b = true ∨ lexLe b a = true := by
  induction a generalizing b with
  | nil => left; rfl
  | cons x xs ih =>
      cases b with
      | nil => right; rfl
      | cons y ys =>
          rcases Nat.lt_trichotomy x.toNat y.toNat with h | h | h
          · left; simp [lexLe, h]
          · have h1 : ¬ x.toNat < y.toNat := by omega
            have h2 : ¬ y.toNat < x.toNat := by omega
            rcases ih ys with hh | hh
            · left; simp [lexLe, h1, h2, hh]
            · right; simp [lexLe, h1, h2, hh]
          · right; simp [lexLe, h]

theorem pyStrLe_total (a b : String) : pyStrLe a b = true ∨ pyStrLe b a = true :=
  lexLe_total a.data b.data

/-- Insert into a sorted list (stable: equal keys keep the incoming element
after existing ones only when strictly required; matches Python's stable
sort on lists with distinct keys). -/
def insertLe {α : Type} (le : α → α → Bool) (x : α) : List α → List α
  | [] => [x]
  | y :: t => if le x y && !le y x then x :: y :: t else y :: insertLe le x t

/-- Insertion sort used to model Python `sorted`. -/
def sortByLe {α : Type} (le : α → α → Bool) : List α → List α
  | [] => []
  | x :: t => insertLe le x (sortByLe le t)

/-- Escaping of one character inside a Python string repr with quote
character `q` (printable ASCII fragment of CPython's algorithm). -/
def pyCharEsc (q c : Char) : List Char :=
  if c = '\\' then ['\\', '\\']
  else if c = q then ['\\', q]
  else if c = '\n' then ['\\', 'n']
  else if c = '\r' then ['\\', 'r']
  else if c = '\t' then ['\\', 't']
  else if c.toNat < 32 ∨ c.toNat = 127 then
    ['\\', 'x', Nat.digitChar (c.toNat / 16), Nat.digitChar (c.toNat % 16)]
  else [c]

/-- Python `repr` of a string: single quotes unless the text contains a
single quote but no double quote. -/
def pyReprStr (s : String) : String :=
  let q := if s.data.contains '\'' && !s.data.contains '"' then '"' else '\''
  String.mk (q :: (s.data.map (pyCharEsc q)).flatten ++ [q])

mutual
/-- Python `repr` of an embedded value. -/
def pyRepr : PyVal → String
  | PyVal.none => "None"
  | PyVal.bool b => if b then "True" else "False"
  | PyVal.int n => intStr n
  | PyVal.str s => pyReprStr s
  | PyVal.dict d => "\x7b" ++ pyReprEntries d ++ "\x7d"

/-- Comma-separated `repr` of dictionary entries (insertion order). -/
def pyReprEntries : List (String × PyVal) → String
  | [] => ""
  | [(k, v)] => pyReprStr k ++ ": " ++ pyRepr v
  | (k, v) :: e :: t =>
      pyReprStr k ++ ": " ++ pyRepr v ++ ", " ++ pyReprEntries (e :: t)
end

/-- Python `str` of an embedded value (identity on strings, `repr`
otherwise); models f-string interpolation. -/
def pyStr : PyVal → String
  | PyVal.str s => s
  | v => pyRepr v

/-- `sorted(style_dict.items())`: the entries sorted by key (Python string
order). -/
def sortItems (d : PyDict) : PyDict :=
  sortByLe (fun p q => pyStrLe p.1 q.1) d

/-- The canonical serialization used by `_generate_style_id`:
`str(sorted(style_dict.items()))`. -/
def canonicalStyleStr (d : PyDict) : String :=
  "[" ++ String.intercalate ", "
      ((sortItems d).map (fun p => "(" ++ pyReprStr p.1 ++ ", " ++ pyRepr p.2 ++ ")"))
    ++ "]"

/-! ### MD5, exactly as `hashlib.md5(...).hexdigest()` -/

/-- UTF-8 bytes of one code point. -/
def utf8Bytes (c : Nat) : List Nat :=
  if c < 128 then [c]
  else if c < 2048 then [192 + c / 64, 128 + c % 64]
  else if c < 65536 then [224 + c / 4096, 128 + c / 64 % 64, 128 + c % 64]
  else [240 + c / 262144, 128 + c / 4096 % 64, 128 + c / 64 % 64, 128 + c % 64]

/-- UTF-8 encoding of a string (Python `str.encode()`). -/
def strBytes (s : String) : List Nat :=
  (s.data.map (fun c => utf8Bytes c.toNat)).flatten

/-- The 64 MD5 sine constants. -/
def md5K : List Nat :=
  [3614090360, 3905402710, 606105819, 3250441966, 4118548399, 1200080426,
   2821735955, 4249261313, 1770035416, 2336552879, 4294925233, 2304563134,
   1804603682, 4254626195, 2792965006, 1236535329, 4129170786, 3225465664,
   643717713, 3921069994, 3593408605, 38016083, 3634488961, 3889429448,
   568446438, 3275163606, 4107603335, 1163531501, 2850285829, 4243563512,
   1735328473, 2368359562, 4294588738, 2272392833, 1839030562, 4259657740,
   2763975236, 1272893353, 4139469664, 3200236656, 681279174, 3936430074,
   3572445317, 76029189, 3654602809, 3873151461, 530742520, 3299628645,
   4096336452, 1126891415, 2878612391, 4237533241, 1700485571, 2399980690,
   4293915773, 2240044497, 1873313359, 4264355552, 2734768916, 1309151649,
   4149444226, 3174756917, 718787259, 3951481745]

/-- The MD5 per-round left-rotation amounts. -/
def md5S : List Nat :=
  [7, 12, 17, 22, 7, 12, 17, 22, 7, 12, 17, 22, 7, 12, 17, 22,
   5, 9, 14, 20, 5, 9, 14, 20, 5, 9, 14, 20, 5, 9, 14, 20,
   4, 11, 16, 23, 4, 11, 16, 23, 4, 11, 16, 23, 4, 11, 16, 23,
   6, 10, 15, 21, 6, 10, 15, 21, 6, 10, 15, 21, 6, 10, 15, 21]

/-- 32-bit left rotation. -/
def rotl32 (x n : Nat) : Nat :=
  ((x <<< n) ||| (x >>> (32 - n))) % 4294967296

/-- MD5 round function and message index for step `i`. -/
def md5FG (i b c d : Nat) : Nat × Nat :=
  if i < 16 then ((b &&& c) ||| ((4294967295 ^^^ b) &&& d), i)
  else if i < 32 then ((d &&& b) ||| ((4294967295 ^^^ d) &&& c), (5 * i + 1) % 16)
  else if i < 48 then (b ^^^ c ^^^ d, (3 * i + 5) % 16)
  else (c ^^^ (b ||| (4294967295 ^^^ d)), (7 * i) % 16)

/-- One MD5 step on the chain state. -/
def md5Step (m : List Nat) (st : Nat × Nat × Nat × Nat) (i : Nat) :
    Nat × Nat × Nat × Nat :=
  let (a, b, c, d) := st
  let (f, g) := md5FG i b c d
  let f' := (f + a + md5K.getD i 0 + m.getD g 0) % 4294967296
  (d, (b + rotl32 f' (md5S.getD i 0)) % 4294967296, b, c)

/-- 64 bytes into 16 little-endian 32-bit words. -/
def md5Words : List Nat → List Nat
  | b0 :: b1 :: b2 :: b3 :: rest =>
      (b0 + 256 * b1 + 65536 * b2 + 16777216 * b3) :: md5Words rest
  | _ => []

/-- Process one 64-byte block. -/
def md5Block (st : Nat × Nat × Nat × Nat) (chunk : List Nat) :
    Nat × Nat × Nat × Nat :=
  let m := md5Words chunk
  let (a, b, c, d) := st
  let (a', b', c', d') := (List.range 64).foldl (md5Step m) (a, b, c, d)
  ((a + a') % 4294967296, (b + b') % 4294967296,
   (c + c') % 4294967296, (d + d') % 4294967296)

/-- Little-endian byte rendering of `n`, exactly `k` bytes. -/
def bytesLE : Nat → Nat → List Nat
  | 0, _ => []
  | k + 1, n => n % 256 :: bytesLE k (n / 256)

/-- MD5 padding: `0x80`, zeros to 56 mod 64, then the 8-byte little-endian
bit length. -/
def md5Pad (msg : List Nat) : List Nat :=
  msg ++ 128 :: List.replicate ((119 - msg.length % 64) % 64) 0
      ++ bytesLE 8 ((8 * msg.length) % 18446744073709551616)

/-- Fold the compression function over the 64-byte chunks; the fuel makes
the recursion structural (one unit per chunk suffices). -/
def md5ChunksAux : Nat → (Nat × Nat × Nat × Nat) → List Nat → Nat × Nat × Nat × Nat
  | 0, st, _ => st
  | _ + 1, st, [] => st
  | fuel + 1, st, b :: rest =>
      md5ChunksAux fuel (md5Block st ((b :: rest).take 64)) ((b :: rest).drop 64)

/-- Process every 64-byte chunk of the (padded) message. -/
def md5Chunks (st : Nat × Nat × Nat × Nat) (l : List Nat) : Nat × Nat × Nat × Nat :=
  md5ChunksAux l.length st l

/-- The 16-byte MD5 digest of a byte string. -/
def md5Bytes (msg : List Nat) : List Nat :=
  let (a, b, c, d) :=
    md5Chunks (1732584193, 4023233417, 2562383102, 271733878) (md5Pad msg)
  bytesLE 4 a ++ bytesLE 4 b ++ bytesLE 4 c ++ bytesLE 4 d

/-- Lowercase hex rendering of one byte. -/
def hexByte (b : Nat) : List Char :=
  [Nat.digitChar (b / 16 % 16), Nat.digitChar (b % 16)]

/-- `hashlib.md5(msg).hexdigest()` as a character list (32 hex chars). -/
def md5HexChars (msg : List Nat) : List Char :=
  ((md5Bytes msg).map hexByte).flatten

/-- The truncated digest used by `_generate_style_id`:
`hashlib.md5(style_str.encode()).hexdigest()[:8]`. -/
def styleHash (s : String) : String :=
  String.mk ((md5HexChars (strBytes s)).take 8)

example : String.mk (md5HexChars (strBytes "")) =
    "d41d8cd98f00b204e9800998ecf8427e" := by decide
example : String.mk (md5HexChars (strBytes "abc")) =
    "900150983cd24fb0d6963f7d28e17f72" := by decide
example : canonicalStyleStr [("bold", PyVal.bool true)] = "[('bold', True)]" := by
  decide
example : styleHash "[('bold', True)]" = "699a2fbf" := by decide
example : canonicalStyleStr [("size", PyVal.int 12), ("bold", PyVal.bool true)]
    = "[('bold', True), ('size', 12)]" := by decide
example : styleHash "[('bold', True), ('size', 12)]" = "473d8716" := by decide
example : pad3 7 = "007" := by decide
example : pad3 1000 = "1000" := by decide

/-! ### The exporter state (`PythonScriptExporter.__init__`) -/

/-- Joined text, Python `"\n".join(lines)`. -/
def joinSep (sep : String) : List String → String
  | [] => ""
  | [x] => x
  | x :: y :: t => x ++ sep ++ joinSep sep (y :: t)

/-- The counter update of `_generate_style_id`
(`self.style_counters[pfx] += 1`): the entry with the given key is bumped
in place; other entries are untouched. -/
def bumpCounter : List (String × Nat) → String → List (String × Nat)
  | [], _ => []
  | (k, v) :: t, p => (if k = p then (k, v + 1) else (k, v)) :: bumpCounter t p

/-- Counter read, `self.style_counters[pfx]`. -/
def getCount (cs : List (String × Nat)) (p : String) : Nat :=
  (lookupAssoc cs p).getD 0

/-- The initial counters of `__init__`. -/
def initCounters : List (String × Nat) :=
  [("BORDER", 0), ("FILL", 0), ("FONT", 0), ("ALIGN", 0)]

/-- The mutable state of a `PythonScriptExporter` instance: the four
per-category declaration registries, the per-category counters and the
content-hash lookup map (`output_dir` is an I/O concern, out of scope). -/
structure ExporterState where
  style_registry_borders : List (String × String)
  style_registry_fills : List (String × String)
  style_registry_fonts : List (String × String)
  style_registry_alignments : List (String × String)
  style_counters : List (String × Nat)
  style_map : List (String × String)
deriving Repr, DecidableEq

/-- A fresh exporter: empty registries, counters at zero, empty map. -/
def initExporter : ExporterState :=
  { style_registry_borders := []
    style_registry_fills := []
    style_registry_fonts := []
    style_registry_alignments := []
    style_counters := initCounters
    style_map := [] }

/-- `self.style_counters[pfx]` (0 as fallback is never exercised by the
emitter, which only passes the four initialized category names). -/
def getCounter (st : ExporterState) (pfx : String) : Nat :=
  getCount st.style_counters pfx

/-- `_generate_style_id`: canonicalize, hash, dedup via `style_map`,
otherwise mint the next sequential identifier for the category. -/
def generate_style_id (st : ExporterState) (style_dict : PyDict) (pfx : String) :
    ExporterState × String :=
  let style_str := canonicalStyleStr style_dict
  let style_hash := styleHash style_str
  let lookup_key := pfx ++ "_" ++ style_hash
  match lookupAssoc st.style_map lookup_key with
  | some id => (st, id)
  | Option.none =>
      let n := getCounter st pfx + 1
      let seq_id := pfx ++ "_" ++ pad3 n
      ({ st with
          style_counters := bumpCounter st.style_counters pfx
          style_map := st.style_map ++ [(lookup_key, seq_id)] },
       seq_id)

/-! ### The sheet emitter (`_write_sheet_module`) -/

/-- Python `data[key]`: `KeyError` when the key is absent. -/
def getItem (d : PyDict) (k : String) : Except String PyVal :=
  match lookupAssoc d k with
  | some v => Except.ok v
  | Option.none => Except.error ("KeyError: " ++ k)

/-- Accumulator threaded through the cell loop of `_write_sheet_module`. -/
structure EmitAcc where
  st : ExporterState
  processed_merges : List PyVal
  cmd_styles : List String
  cmd_formulas : List String
  cmd_merges : List String

/-- One `f"{k}={v}"` / `f"{k}='{v}'"` argument of a `Font(...)` or
`Alignment(...)` declaration (`isinstance(v, (int, bool))` — Python `bool`
is a subclass of `int`, so both renderers use the same test). -/
def styleArg (k : String) (v : PyVal) : String :=
  match v with
  | PyVal.int _ => k ++ "=" ++ pyStr v
  | PyVal.bool _ => k ++ "=" ++ pyStr v
  | _ => k ++ "='" ++ pyStr v ++ "'"

/-- Rendered `Font(...)` declaration text. -/
def fontDecl (fd : PyDict) : String :=
  "Font(" ++ joinSep ", " (fd.map (fun p => styleArg p.1 p.2)) ++ ")"

/-- Rendered `Alignment(...)` declaration text. -/
def alignDecl (ad : PyDict) : String :=
  "Alignment(" ++ joinSep ", " (ad.map (fun p => styleArg p.1 p.2)) ++ ")"

/-- One border side argument `f"{s}=Side(border_style='{d['style']}',
color='{d['color']}')"`; subscripting a non-dict raises. -/
def borderArg (s : String) (d : PyVal) : Except String String :=
  match d with
  | PyVal.dict dd => do
      let sty ← getItem dd "style"
      let col ← getItem dd "color"
      Except.ok (s ++ "=Side(border_style='" ++ pyStr sty ++ "', color='"
        ++ pyStr col ++ "')")
  | _ => Except.error "TypeError: border side is not subscriptable"

/-- All border side arguments, in dictionary (insertion) order. -/
def borderArgs : PyDict → Except String (List String)
  | [] => Except.ok []
  | (s, d) :: t => do
      let a ← borderArg s d
      let rest ← borderArgs t
      Except.ok (a :: rest)

/-- The `Formulas` block: the appended set-formula statement, when
`data.get('formula')` is truthy. -/
def formulaCmds (data : PyDict) (address : PyVal) : List String :=
  if pyTruthyOpt (lookupAssoc data "formula") then
    ["    ws['" ++ pyStr address ++ "'].value = '"
      ++ pyStr ((lookupAssoc data "formula").getD PyVal.none) ++ "'"]
  else []

/-- The `Values` block: `""` unless a non-`None` value is present. -/
def valueOf (data : PyDict) : PyVal :=
  match lookupAssoc data "value" with
  | some PyVal.none => PyVal.str ""
  | some v => v
  | Option.none => PyVal.str ""

/-- The font attribute subset built by the `Font` block. -/
def fontDataOf (data : PyDict) : PyDict :=
  let fd1 : PyDict :=
    if pyTruthyOpt (lookupAssoc data "font_bold") then [("bold", PyVal.bool true)] else []
  let fd2 :=
    if pyTruthyOpt (lookupAssoc data "font_italic") then fd1 ++ [("italic", PyVal.bool true)] else fd1
  let fd3 :=
    if pyTruthyOpt (lookupAssoc data "font_size") then
      fd2 ++ [("size", (lookupAssoc data "font_size").getD PyVal.none)]
    else fd2
  let fd4 :=
    if pyTruthyOpt (lookupAssoc data "font_name") then
      fd3 ++ [("name", (lookupAssoc data "font_name").getD PyVal.none)]
    else fd3
  match lookupAssoc data "font_color" with
  | some (PyVal.str s) => if s.length ≤ 8 then fd4 ++ [("color", PyVal.str s)] else fd4
  | _ => fd4

/-- The `Font` block: intern the subset (if nonempty), record its rendered
declaration on first sight, and resolve the identifier (else `"None"`). -/
def resolveFont (st : ExporterState) (data : PyDict) : ExporterState × String :=
  let font_data := fontDataOf data
  if font_data.isEmpty then (st, "None")
  else
    let (st', f_id) := generate_style_id st font_data "FONT"
    let st'' :=
      if (lookupAssoc st'.style_registry_fonts f_id).isSome then st'
      else { st' with style_registry_fonts :=
              assocSet st'.style_registry_fonts f_id (fontDecl font_data) }
    (st'', f_id)

/-- The alignment attribute subset built by the `Alignment & Rotation`
block (defaults `'left'` / `'bottom'` / `0` are omitted). -/
def alignDataOf (data : PyDict) : PyDict :=
  let ha := lookupAssoc data "horizontal_align"
  let ad1 : PyDict :=
    if pyTruthyOpt ha && !pyEq (ha.getD PyVal.none) (PyVal.str "left") then
      [("horizontal", ha.getD PyVal.none)]
    else []
  let va := lookupAssoc data "vertical_align"
  let ad2 :=
    if pyTruthyOpt va && !pyEq (va.getD PyVal.none) (PyVal.str "bottom") then
      ad1 ++ [("vertical", va.getD PyVal.none)]
    else ad1
  let tr := (lookupAssoc data "text_rotation").getD (PyVal.int 0)
  if !pyEq tr (PyVal.int 0) then ad2 ++ [("text_rotation", tr)] else ad2

/-- The `Alignment & Rotation` block: intern and resolve. -/
def resolveAlign (st : ExporterState) (data : PyDict) : ExporterState × String :=
  let align_data := alignDataOf data
  if align_data.isEmpty then (st, "None")
  else
    let (st', a_id) := generate_style_id st align_data "ALIGN"
    let st'' :=
      if (lookupAssoc st'.style_registry_alignments a_id).isSome then st'
      else { st' with style_registry_alignments :=
              assocSet st'.style_registry_alignments a_id (alignDecl align_data) }
    (st'', a_id)

/-- The `Borders` block: intern the raw borders dictionary and record its
declaration (unconditional overwrite in the source); a truthy non-dict
value raises when `.items()` is taken, a side without `style`/`color`
raises `KeyError`. -/
def resolveBorder (st : ExporterState) (data : PyDict) :
    Except String (ExporterState × String) :=
  match lookupAssoc data "borders" with
  | some bv =>
      if pyTruthy bv then
        match bv with
        | PyVal.dict bd => do
            let (st', b_id) := generate_style_id st bd "BORDER"
            let args ← borderArgs bd
            let newBorders := assocSet st'.style_registry_borders b_id
              ("Border(" ++ joinSep ", " args ++ ")")
            Except.ok ({ st' with style_registry_borders := newBorders }, b_id)
        | _ => Except.error "AttributeError: items"
      else Except.ok (st, "None")
  | Option.none => Except.ok (st, "None")

/-- The `Fill` block: a string `fill_color` of length at most 8 with no
space is interned as a solid fill. -/
def resolveFill (st : ExporterState) (data : PyDict) : ExporterState × String :=
  match lookupAssoc data "fill_color" with
  | some (PyVal.str s) =>
      if s.length ≤ 8 && !s.data.contains ' ' then
        let (st', f_id) :=
          generate_style_id st [("color", PyVal.str s), ("type", PyVal.str "solid")] "FILL"
        let st'' :=
          if (lookupAssoc st'.style_registry_fills f_id).isSome then st'
          else
            let fillText := "PatternFill(start_color='" ++ s ++ "', end_color='"
              ++ s ++ "', fill_type='solid')"
            { st' with style_registry_fills :=
                assocSet st'.style_registry_fills f_id fillText }
        (st'', f_id)
      else (st, "None")
  | _ => (st, "None")

/-- The combined `format_cell` statement for one cell. -/
def styleLine (row column value : PyVal) (font alignment border fill : String) : String :=
  "    format_cell(ws, " ++ pyStr row ++ ", " ++ pyStr column
    ++ ", \"\"\"" ++ pyStr value ++ "\"\"\", " ++ font ++ ", " ++ alignment
    ++ ", " ++ border ++ ", " ++ fill ++ ")"

/-- The `Merge Logic` block: emit the range once per sheet, first
occurrence wins, tracked through the seen set. -/
def mergeStep (pm : List PyVal) (cm : List String) (data : PyDict) :
    List String × List PyVal :=
  let m_range := (lookupAssoc data "merge_range").getD PyVal.none
  if pyTruthyOpt (lookupAssoc data "is_merged")
      && !(pm.any (fun x => pyEq m_range x)) then
    (cm ++ ["    ws.merge_cells('" ++ pyStr m_range ++ "')"], pm ++ [m_range])
  else (cm, pm)

/-- The body of the per-cell loop of `_write_sheet_module`, one cell. -/
def processCell (acc : EmitAcc) (data : PyDict) : Except String EmitAcc := do
  -- Coordinate (required subscripts: KeyError when absent)
  let address ← getItem data "coordinate"
  let row ← getItem data "row"
  let column ← getItem data "col"
  let cmd_formulas := acc.cmd_formulas ++ formulaCmds data address
  let (st1, font) := resolveFont acc.st data
  let (st2, alignment) := resolveAlign st1 data
  let (st3, border) ← resolveBorder st2 data
  let (st4, fill) := resolveFill st3 data
  let cmd_styles := acc.cmd_styles
    ++ [styleLine row column (valueOf data) font alignment border fill]
  let (cmd_merges, pm) := mergeStep acc.processed_merges acc.cmd_merges data
  Except.ok ⟨st4, pm, cmd_styles, cmd_formulas, cmd_merges⟩

/-- Fold `processCell` over the cell list, in input order. -/
def processCells (acc : EmitAcc) : List PyDict → Except String EmitAcc
  | [] => Except.ok acc
  | c :: t => do processCells (← processCell acc c) t

/-- One sheet's content, the normalized shape of
`{"cells": [...], "dims": {...}, "assets": [...]}` (absent keys become
empty lists, matching the `content.get(..., default)` calls). -/
structure SheetContent where
  cells : List PyDict := []
  dims_cols : List (PyVal × PyVal) := []
  dims_rows : List (PyVal × PyVal) := []
  assets : List PyDict := []

/-- Column-width and row-height statements, dims iteration order. -/
def dimLines (content : SheetContent) : List String :=
  content.dims_cols.map (fun p =>
    "    ws.column_dimensions['" ++ pyStr p.1 ++ "'].width = " ++ pyStr p.2)
  ++ content.dims_rows.map (fun p =>
    "    ws.row_dimensions[" ++ pyStr p.1 ++ "].height = " ++ pyStr p.2)

/-- Image-asset statements (each wrapped in a try/except in the generated
code); subscripting an asset record without the key raises. -/
def assetLines (original_name : String) : List PyDict → Except String (List String)
  | [] => Except.ok []
  | img :: t => do
      let fn ← getItem img "filename"
      let w ← getItem img "width"
      let h ← getItem img "height"
      let anchor ← getItem img "anchor"
      let rest ← assetLines original_name t
      Except.ok
        (["    try:",
          "        img_path = Path(__file__).parent / 'images' / '" ++ pyStr fn ++ "'",
          "        img_obj = XLImage(img_path)",
          "        img_obj.width, img_obj.height = " ++ pyStr w ++ ", " ++ pyStr h,
          "        ws.add_image(img_obj, '" ++ pyStr anchor ++ "')",
          "    except Exception as e: print(f' [!] Error loading image " ++ pyStr fn
            ++ ": \x7be\x7d')"] ++ rest)

/-- The fixed module header of every generated sheet module. -/
def sheetHeader (clean_name original_name : String) : List String :=
  ["# -*- coding: utf-8 -*-\n",
   "from openpyxl.styles import Alignment, Font, PatternFill, Border, Side",
   "from openpyxl.drawing.image import Image as XLImage",
   "from datetime import datetime as dt, time as tm",
   "from pathlib import Path\n",
   "# format_cell function and style constants",
   "from common import *\n\n",
   "def build_" ++ clean_name ++ "(wb):",
   "    ws = wb.create_sheet('" ++ original_name ++ "')"]

/-- Assembly of a sheet module's lines: header, then the dimension, merge,
style, formula and asset sections (each present only when nonempty), then
the completion print. -/
def scriptOf (clean_name original_name : String)
    (dims merges styles formulas assetsL : List String) : List String :=
  sheetHeader clean_name original_name
  ++ (if dims.isEmpty then [] else "    # Dimensions" :: dims)
  ++ (if merges.isEmpty then [] else "    # Merges" :: merges)
  ++ (if styles.isEmpty then [] else "    # Styles" :: styles)
  ++ (if formulas.isEmpty then [] else "    # Formulas" :: formulas)
  ++ (if assetsL.isEmpty then [] else ("    # Assets for " ++ original_name) :: assetsL)
  ++ ["    print(f\"   [+] Sheet " ++ original_name ++ " completed.\")\n"]

/-- `_write_sheet_module`, returning the updated registry state and the
lines of the generated sheet module. -/
def write_sheet_module (st : ExporterState) (clean_name original_name : String)
    (content : SheetContent) : Except String (ExporterState × List String) := do
  let cmd_dims := dimLines content
  let acc ← processCells ⟨st, [], [], [], []⟩ content.cells
  let aLines ← assetLines original_name content.assets
  Except.ok (acc.st,
    scriptOf clean_name original_name cmd_dims acc.cmd_merges acc.cmd_styles
      acc.cmd_formulas aLines)

/-! ### The shared-styles module (`_write_common_styles`) -/

/-- The fixed `format_cell` helper written at the top of `common.py`. -/
def commonHeader : List String :=
  ["# -*- coding: utf-8 -*-\n",
   "from openpyxl.cell.cell import Cell",
   "from openpyxl.worksheet.worksheet import Worksheet",
   "from openpyxl.styles import Border, Side, PatternFill, Font, Alignment\n\n",
   "def format_cell(worksheet : Worksheet, ",
   "                row: int,",
   "                column: int,",
   "                value: str, ",
   "                font : Font = None,",
   "                alignment : Alignment = None,",
   "                border : Border = None,",
   "                fill : PatternFill = None) -> Cell:\n",
   "    cell = worksheet.cell(row=row, column=column)",
   "    if value: cell.value = value",
   "    if font: cell.font = font",
   "    if alignment: cell.alignment = alignment",
   "    if border: cell.border = border",
   "    if fill: cell.fill = fill\n",
   "    return cell\n\n",
   "# Common styles and configurations"]

/-- One category section: `\n# TITLE` then `id = declaration` lines for
`sorted(styles.keys())`. -/
def sectionLines (title : String) (styles : List (String × String)) : List String :=
  ("\n# " ++ title)
    :: (sortByLe pyStrLe (styles.map Prod.fst)).map
        (fun id => id ++ " = " ++ ((lookupAssoc styles id).getD ""))

/-- The lines of `common.py`: the registry categories are iterated in the
insertion order of `__init__`, i.e. borders, fills, fonts, alignments. -/
def commonLines (st : ExporterState) : List String :=
  commonHeader
  ++ sectionLines "BORDERS" st.style_registry_borders
  ++ sectionLines "FILLS" st.style_registry_fills
  ++ sectionLines "FONTS" st.style_registry_fonts
  ++ sectionLines "ALIGNMENTS" st.style_registry_alignments

/-! ### The entry point module (`_write_main_reconstructor`) -/

/-- The lines of `main.py` for the recorded sheet module names. -/
def mainLines (sheet_modules : List String) : List String :=
  ["# -*- coding: utf-8 -*-\n",
   "import openpyxl",
   "import sys\n",
   "from pathlib import Path\n",
   "sys.path.append(str(Path(__file__).parent))\n"]
  ++ sheet_modules.map (fun m => "from sheet_" ++ m ++ " import build_" ++ m)
  ++ ["\ndef main():",
      "    wb = openpyxl.Workbook()",
      "    if 'Sheet' in wb.sheetnames: wb.remove(wb['Sheet'])"]
  ++ sheet_modules.map (fun m => "    build_" ++ m ++ "(wb)")
  ++ ["    output_file = 'output.xlsx'",
      "    wb.save(output_file)",
      "    print(f\"[!] Success: '\x7boutput_file\x7d' generated.\")",
      "\nif __name__ == '__main__':",
      "    main()"]

/-! ### The orchestrator (`generate_full_workbook`) -/

/-- `"".join(filter(str.isalnum, sheet_name))`. -/
def cleanNameOf (sheet_name : String) : String :=
  String.mk (sheet_name.data.filter Char.isAlphanum)

/-- Sheet loop of `generate_full_workbook`: returns the final state, the
recorded clean names (in order) and the sheet module writes (in order). -/
def genSheets (st : ExporterState) :
    List (String × SheetContent) →
      Except String (ExporterState × List String × List (String × String))
  | [] => Except.ok (st, [], [])
  | (sheet_name, content) :: t => do
      let clean_name := cleanNameOf sheet_name
      let (st', lines) ← write_sheet_module st clean_name sheet_name content
      let (stf, mods, writes) ← genSheets st' t
      Except.ok (stf, clean_name :: mods,
        ("sheet_" ++ clean_name ++ ".py", joinSep "\n" lines) :: writes)

/-- The whole generation run from a given exporter state: the ordered list
of file writes `(filename, contents)` — one module per sheet, then
`common.py`, then `main.py`.  A later write to an existing filename
overwrites the file. -/
def generate_from (st0 : ExporterState) (workbook_data : List (String × SheetContent)) :
    Except String (List (String × String)) := do
  let (st, mods, writes) ← genSheets st0 workbook_data
  Except.ok (writes
    ++ [("common.py", joinSep "\n" (commonLines st)),
        ("main.py", joinSep "\n" (mainLines mods))])

/-- `generate_full_workbook`: a run of a freshly constructed exporter
(`__init__` then the generate call). -/
def generate_full_workbook (workbook_data : List (String × SheetContent)) :
    Except String (List (String × String)) :=
  generate_from initExporter workbook_data

/-- The directory contents after all writes: for each filename the last
written contents win. -/
def finalContents (writes : List (String × String)) (fname : String) : Option String :=
  lookupAssoc writes.reverse fname

/-! ### Inversion and bookkeeping lemmas for the cell loop -/

theorem exceptBind_ok {α β : Type} {x : Except String α} {f : α → Except String β}
    {b : β} (h : (x >>= f) = Except.ok b) : ∃ a, x = Except.ok a ∧ f a = Except.ok b := by
  cases x with
  | error e => simp [Bind.bind, Except.bind] at h
  | ok a => exact ⟨a, rfl, by simpa [Bind.bind, Except.bind] using h⟩

theorem getItem_ok {d : PyDict} {k : String} {v : PyVal}
    (h : getItem d k = Except.ok v) : lookupAssoc d k = some v := by
  unfold getItem at h
  cases hl : lookupAssoc d k with
  | none => rw [hl] at h; exact absurd h (by simp)
  | some w => rw [hl] at h; simpa using h

/-- Full inversion of one loop iteration: on success, the coordinate triple
was present, the border resolution succeeded, and the accumulator is
extended exactly by the formula, style and merge emissions of this cell. -/
theorem processCell_ok {acc acc' : EmitAcc} {d : PyDict}
    (h : processCell acc d = Except.ok acc') :
    ∃ address row column stB border,
      getItem d "coordinate" = Except.ok address ∧
      getItem d "row" = Except.ok row ∧
      getItem d "col" = Except.ok column ∧
      resolveBorder (resolveAlign (resolveFont acc.st d).1 d).1 d = Except.ok (stB, border) ∧
      acc' = ⟨(resolveFill stB d).1,
              (mergeStep acc.processed_merges acc.cmd_merges d).2,
              acc.cmd_styles ++ [styleLine row column (valueOf d)
                (resolveFont acc.st d).2 (resolveAlign (resolveFont acc.st d).1 d).2
                border (resolveFill stB d).2],
              acc.cmd_formulas ++ formulaCmds d address,
              (mergeStep acc.processed_merges acc.cmd_merges d).1⟩ := by
  unfold processCell at h
  obtain ⟨address, hco, h⟩ := exceptBind_ok h
  obtain ⟨row, hrow, h⟩ := exceptBind_ok h
  obtain ⟨column, hcol, h⟩ := exceptBind_ok h
  rcases hf : resolveFont acc.st d with ⟨st1, font⟩
  rw [hf] at h; dsimp only at h
  rcases ha : resolveAlign st1 d with ⟨st2, alignment⟩
  rw [ha] at h; dsimp only at h
  obtain ⟨⟨st3, border⟩, hb, h⟩ := exceptBind_ok h
  dsimp only at h
  rcases hfi : resolveFill st3 d with ⟨st4, fill⟩
  rw [hfi] at h; dsimp only at h
  rcases hm : mergeStep acc.processed_merges acc.cmd_merges d with ⟨cm', pm'⟩
  rw [hm] at h; dsimp only at h
  dsimp only
  refine ⟨address, row, column, st3, border, hco, hrow, hcol, hb, ?_⟩
  injection h with h2
  subst h2
  rw [hfi]

/-- The style registry state and the style/formula command lists do not
affect whether the loop succeeds, nor the merge bookkeeping. -/
theorem processCells_ok_of_shape :
    ∀ (cells : List PyDict) (acc acc' : EmitAcc),
      processCells acc cells = Except.ok acc' →
      ∃ sSty sFor, acc'.cmd_styles = acc.cmd_styles ++ sSty ∧
        acc'.cmd_formulas = acc.cmd_formulas ++ sFor := by
  intro cells
  induction cells with
  | nil =>
      intro acc acc' h
      cases h
      exact ⟨[], [], by simp, by simp⟩
  | cons c t ih =>
      intro acc acc' h
      unfold processCells at h
      obtain ⟨acc1, h1, h2⟩ := exceptBind_ok h
      obtain ⟨address, row, column, stB, border, _, _, _, _, hacc⟩ := processCell_ok h1
      subst hacc
      obtain ⟨sSty, sFor, hS, hF⟩ := ih _ acc' h2
      refine ⟨[styleLine row column (valueOf c) (resolveFont acc.st c).2
          (resolveAlign (resolveFont acc.st c).1 c).2 border (resolveFill stB c).2] ++ sSty,
        formulaCmds c address ++ sFor, ?_, ?_⟩ <;> simp_all

/-- The formula statement a cell contributes, written in terms of the
record itself (the coordinate is present whenever the loop succeeded). -/
def formulaCmdsPure (d : PyDict) : List String :=
  formulaCmds d ((lookupAssoc d "coordinate").getD PyVal.none)

/-- All formula statements of a cell sequence, in input order. -/
def formulasOf (cells : List PyDict) : List String :=
  (cells.map formulaCmdsPure).flatten

/-- On success, the formula command list is extended by exactly the formula
statements of the processed cells, in input order. -/
theorem processCells_formulas :
    ∀ (cells : List PyDict) (acc acc' : EmitAcc),
      processCells acc cells = Except.ok acc' →
      acc'.cmd_formulas = acc.cmd_formulas ++ formulasOf cells := by
  intro cells
  induction cells with
  | nil =>
      intro acc acc' h
      cases h
      simp [formulasOf]
  | cons c t ih =>
      intro acc acc' h
      unfold processCells at h
      obtain ⟨acc1, h1, h2⟩ := exceptBind_ok h
      obtain ⟨address, row, column, stB, border, hco, _, _, _, hacc⟩ := processCell_ok h1
      have hlook := getItem_ok hco
      have haddr : formulaCmds c address = formulaCmdsPure c := by
        simp [formulaCmdsPure, hlook]
      have := ih acc1 acc' h2
      subst hacc
      simp only [formulasOf, List.map_cons, List.flatten_cons] at *
      rw [this]
      simp [haddr, formulasOf]

/-- The merge bookkeeping of the loop, as a standalone fold. -/
def mergeFold (pm : List PyVal) (cm : List String) : List PyDict → List String × List PyVal
  | [] => (cm, pm)
  | d :: t =>
      let (cm', pm') := mergeStep pm cm d
      mergeFold pm' cm' t

/-- On success, merge commands and the seen set are exactly the merge fold
of the processed cells. -/
theorem processCells_merges :
    ∀ (cells : List PyDict) (acc acc' : EmitAcc),
      processCells acc cells = Except.ok acc' →
      (acc'.cmd_merges, acc'.processed_merges) =
        mergeFold acc.processed_merges acc.cmd_merges cells := by
  intro cells
  induction cells with
  | nil =>
      intro acc acc' h
      cases h
      rfl
  | cons c t ih =>
      intro acc acc' h
      unfold processCells at h
      obtain ⟨acc1, h1, h2⟩ := exceptBind_ok h
      obtain ⟨address, row, column, stB, border, _, _, _, _, hacc⟩ := processCell_ok h1
      have := ih acc1 acc' h2
      subst hacc
      simp only [mergeFold]
      rcases hm : mergeStep acc.processed_merges acc.cmd_merges c with ⟨cm', pm'⟩
      simp only [hm] at this ⊢
      exact this

/-! ### Merge dedup bookkeeping -/

/-- The merge ranges carried by cells with truthy `is_merged`, in input
order (an absent `merge_range` contributes `None`). -/
def triggers (cells : List PyDict) : List PyVal :=
  cells.filterMap (fun d =>
    if pyTruthyOpt (lookupAssoc d "is_merged") then
      some ((lookupAssoc d "merge_range").getD PyVal.none)
    else Option.none)

/-- First-occurrence deduplication modulo Python `==`, starting from an
already-seen set. -/
def dedupPy (seen : List PyVal) : List PyVal → List PyVal
  | [] => []
  | r :: t =>
      if seen.any (fun x => pyEq r x) then dedupPy seen t
      else r :: dedupPy (seen ++ [r]) t

/-- Python `in` on the seen set. -/
def memPy (r : PyVal) (l : List PyVal) : Bool := l.any (fun x => pyEq r x)

/-- Number of elements Python-equal to `r`. -/
def countPy (r : PyVal) (l : List PyVal) : Nat :=
  (l.filter (fun x => pyEq r x)).length

theorem mergeFold_spec :
    ∀ (cells : List PyDict) (pm : List PyVal) (cm : List String),
      mergeFold pm cm cells =
        (cm ++ (dedupPy pm (triggers cells)).map
            (fun r => "    ws.merge_cells('" ++ pyStr r ++ "')"),
         pm ++ dedupPy pm (triggers cells)) := by
  intro cells
  induction cells with
  | nil => intro pm cm; simp [mergeFold, triggers, dedupPy]
  | cons d t ih =>
      intro pm cm
      by_cases hM : pyTruthyOpt (lookupAssoc d "is_merged") = true
      · have ht : triggers (d :: t)
            = ((lookupAssoc d "merge_range").getD PyVal.none) :: triggers t := by
          simp [triggers, hM]
        by_cases hSeen : pm.any (fun x =>
            pyEq ((lookupAssoc d "merge_range").getD PyVal.none) x) = true
        · have hstep : mergeStep pm cm d = (cm, pm) := by
            simp [mergeStep, hM, hSeen]
          simp only [mergeFold, hstep, ht, dedupPy, hSeen, if_pos]
          exact ih pm cm
        · have hstep : mergeStep pm cm d =
              (cm ++ ["    ws.merge_cells('"
                ++ pyStr ((lookupAssoc d "merge_range").getD PyVal.none) ++ "')"],
               pm ++ [(lookupAssoc d "merge_range").getD PyVal.none]) := by
            simp [mergeStep, hM, hSeen]
          simp only [mergeFold, hstep, ht, dedupPy, hSeen, if_neg]
          rw [ih]
          simp
      · have ht : triggers (d :: t) = triggers t := by
          simp [triggers, hM]
        have hstep : mergeStep pm cm d = (cm, pm) := by
          simp [mergeStep, hM]
        simp only [mergeFold, hstep, ht]
        exact ih pm cm

theorem pyEq_str {s : String} {v : PyVal} : pyEq (PyVal.str s) v = true ↔ v = PyVal.str s := by
  cases v <;> simp [pyEq, pySize, pyEqFuel]
  exact eq_comm

theorem countPy_dedupPy_str :
    ∀ (l seen : List PyVal) (s : String),
      countPy (PyVal.str s) (dedupPy seen l) =
        if memPy (PyVal.str s) l ∧ ¬ memPy (PyVal.str s) seen then 1 else 0 := by
  intro l
  induction l with
  | nil => intro seen s; simp [dedupPy, countPy, memPy]
  | cons r t ih =>
      intro seen s
      by_cases hr : r = PyVal.str s
      · subst hr
        by_cases hSeen : (seen.any fun x => pyEq (PyVal.str s) x) = true
        · rw [dedupPy, if_pos hSeen, ih]
          have h1 : memPy (PyVal.str s) seen = true := hSeen
          simp [h1]
        · rw [dedupPy, if_neg hSeen]
          have h2 : memPy (PyVal.str s) (seen ++ [PyVal.str s]) = true := by
            simp [memPy, pyEq_str]
          have h3 : countPy (PyVal.str s) (PyVal.str s :: dedupPy (seen ++ [PyVal.str s]) t)
              = 1 + countPy (PyVal.str s) (dedupPy (seen ++ [PyVal.str s]) t) := by
            simp [countPy, List.filter_cons, pyEq_str, Nat.add_comm]
          rw [h3, ih]
          have h4 : memPy (PyVal.str s) seen = false := Bool.eq_false_iff.mpr hSeen
          have hp : pyEq (PyVal.str s) (PyVal.str s) = true := pyEq_str.mpr rfl
          have h6 : memPy (PyVal.str s) (PyVal.str s :: t) = true := by
            simp [memPy, List.any_cons, hp]
          simp [h2, h4, hp, hSeen, h6]
      · have hne : pyEq (PyVal.str s) r = false := by
          rcases h : pyEq (PyVal.str s) r with _ | _
          · rfl
          · exact absurd (pyEq_str.mp h) hr
        have hmt : memPy (PyVal.str s) (r :: t) = memPy (PyVal.str s) t := by
          simp [memPy, List.any_cons, hne]
        by_cases hSeen : (seen.any fun x => pyEq r x) = true
        · rw [dedupPy, if_pos hSeen, ih, hmt]
        · rw [dedupPy, if_neg hSeen]
          have h5 : countPy (PyVal.str s) (r :: dedupPy (seen ++ [r]) t)
              = countPy (PyVal.str s) (dedupPy (seen ++ [r]) t) := by
            simp [countPy, List.filter_cons, hne]
          rw [h5, ih]
          have hmseen : memPy (PyVal.str s) (seen ++ [r]) = memPy (PyVal.str s) seen := by
            simp [memPy, List.any_append, hne]
          rw [hmseen, hmt]

/-- Every processed cell contributes one combined `format_cell` statement
built from its row, column and value. -/
theorem processCells_styles_mem :
    ∀ (cells : List PyDict) (acc acc' : EmitAcc),
      processCells acc cells = Except.ok acc' →
      ∀ d ∈ cells, ∃ f a b fi,
        styleLine ((lookupAssoc d "row").getD PyVal.none)
          ((lookupAssoc d "col").getD PyVal.none) (valueOf d) f a b fi
          ∈ acc'.cmd_styles := by
  intro cells
  induction cells with
  | nil => intro acc acc' h d hd; cases hd
  | cons c t ih =>
      intro acc acc' h d hd
      unfold processCells at h
      obtain ⟨acc1, h1, h2⟩ := exceptBind_ok h
      rcases List.mem_cons.mp hd with hdc | hdt
      · subst hdc
        obtain ⟨address, row, column, stB, border, hco, hrow, hcol, hb, hacc⟩ :=
          processCell_ok h1
        have hrowl := getItem_ok hrow
        have hcoll := getItem_ok hcol
        obtain ⟨sSty, sFor, hS, hF⟩ := processCells_ok_of_shape t acc1 acc' h2
        refine ⟨(resolveFont acc.st d).2, (resolveAlign (resolveFont acc.st d).1 d).2,
          border, (resolveFill stB d).2, ?_⟩
        rw [hS, hacc]
        dsimp only
        rw [hrowl, hcoll]
        simp
      · exact ih acc1 acc' h2 d hdt

/-- In the assembled sheet module, the formula section follows every
emitted `format_cell` statement. -/
theorem scriptOf_formulas_last :
    ∀ (clean_name original_name : String) (dims merges styles formulas aL : List String),
      ∃ pre post,
        scriptOf clean_name original_name dims merges styles formulas aL
          = pre ++ formulas ++ post
        ∧ ∀ l ∈ styles, l ∈ pre := by
  intro cn orig dims merges styles formulas aL
  refine ⟨sheetHeader cn orig
      ++ (if dims.isEmpty then [] else "    # Dimensions" :: dims)
      ++ (if merges.isEmpty then [] else "    # Merges" :: merges)
      ++ (if styles.isEmpty then [] else "    # Styles" :: styles)
      ++ (if formulas.isEmpty then [] else ["    # Formulas"]),
    (if aL.isEmpty then [] else ("    # Assets for " ++ orig) :: aL)
      ++ ["    print(f\"   [+] Sheet " ++ orig ++ " completed.\")\n"], ?_, ?_⟩
  · unfold scriptOf
    by_cases hf : formulas.isEmpty
    · have : formulas = [] := List.isEmpty_iff.mp hf
      subst this
      simp
    · simp only [hf, if_neg, Bool.not_eq_true]
      simp
  · intro l hl
    have hs : ¬ styles.isEmpty := by
      intro hc
      rw [List.isEmpty_iff.mp hc] at hl
      cases hl
    simp [hs, hl]

/-! ### Claim theorems (sheet emitter and orchestrator determinism) -/

/-- C3: determinism — for every fixed workbook description, two generation
runs on fresh exporter states (fresh registries) return identical results,
and in particular byte-identical contents for every output module. -/
theorem c3_generate_deterministic :
    ∀ (wd : List (String × SheetContent)) (st₁ st₂ : ExporterState),
      st₁ = initExporter → st₂ = initExporter →
      generate_from st₁ wd = generate_from st₂ wd
      ∧ ∀ w₁ w₂ fname, generate_from st₁ wd = Except.ok w₁ →
          generate_from st₂ wd = Except.ok w₂ →
          finalContents w₁ fname = finalContents w₂ fname := by
  intro wd st1 st2 h1 h2
  subst h1; subst h2
  refine ⟨rfl, ?_⟩
  intro w1 w2 fname hw1 hw2
  rw [hw1] at hw2
  injection hw2 with h
  rw [h]

/-- Witness for C3 at a concrete one-sheet workbook. -/
theorem c3_generate_deterministic_witness :
    (initExporter = initExporter ∧ initExporter = initExporter)
    ∧ (generate_from initExporter [("Sales", ⟨[], [], [], []⟩)]
        = generate_from initExporter [("Sales", ⟨[], [], [], []⟩)]
      ∧ ∀ w₁ w₂ fname,
          generate_from initExporter [("Sales", ⟨[], [], [], []⟩)] = Except.ok w₁ →
          generate_from initExporter [("Sales", ⟨[], [], [], []⟩)] = Except.ok w₂ →
          finalContents w₁ fname = finalContents w₂ fname) :=
  ⟨⟨rfl, rfl⟩, c3_generate_deterministic [("Sales", ⟨[], [], [], []⟩)] _ _ rfl rfl⟩

/-- C5 counterexample: the claim says that in the per-cell style-assignment
path the value statement of a formula-bearing record is skipped, and that a
present formula always yields a set-formula statement.  Neither holds: for
a record with `formula = '=B1'` and `value = 'X'` the combined
`format_cell` statement still embeds the value `X`, and for a record whose
formula is present but empty (`formula = ''`, truthiness test) no
set-formula statement is emitted at all. -/
theorem c5_formula_counterexample :
    processCells ⟨initExporter, [], [], [], []⟩
        [[("coordinate", PyVal.str "A1"), ("row", PyVal.int 1), ("col", PyVal.int 1),
          ("formula", PyVal.str "=B1"), ("value", PyVal.str "X")]]
      = Except.ok ⟨initExporter, [],
          ["    format_cell(ws, 1, 1, \"\"\"X\"\"\", None, None, None, None)"],
          ["    ws['A1'].value = '=B1'"], []⟩
    ∧ processCells ⟨initExporter, [], [], [], []⟩
        [[("coordinate", PyVal.str "A1"), ("row", PyVal.int 1), ("col", PyVal.int 1),
          ("formula", PyVal.str "")]]
      = Except.ok ⟨initExporter, [],
          ["    format_cell(ws, 1, 1, \"\"\"\"\"\", None, None, None, None)"],
          [], []⟩ := ⟨rfl, rfl⟩

/-- C5 (amended): every record with a truthy (non-empty) formula yields a
set-formula statement with the formula text verbatim, and in the assembled
module all set-formula statements come after all `format_cell` statements,
so the formula overwrites the value and takes precedence for what is
written into the cell; the combined statement itself still embeds the
value. -/
theorem c5_formula_amended :
    ∀ (st : ExporterState) (cells : List PyDict) (acc' : EmitAcc),
      processCells ⟨st, [], [], [], []⟩ cells = Except.ok acc' →
      (∀ d ∈ cells, pyTruthyOpt (lookupAssoc d "formula") = true →
        ("    ws['" ++ pyStr ((lookupAssoc d "coordinate").getD PyVal.none)
          ++ "'].value = '" ++ pyStr ((lookupAssoc d "formula").getD PyVal.none) ++ "'")
          ∈ acc'.cmd_formulas)
      ∧ (∀ clean_name original_name dims aL, ∃ pre post,
          scriptOf clean_name original_name dims acc'.cmd_merges acc'.cmd_styles
              acc'.cmd_formulas aL
            = pre ++ acc'.cmd_formulas ++ post
          ∧ ∀ l ∈ acc'.cmd_styles, l ∈ pre) := by
  intro st cells acc' h
  constructor
  · intro d hd htruthy
    have hform := processCells_formulas cells _ acc' h
    rw [hform]
    dsimp only
    rw [List.nil_append]
    have : ("    ws['" ++ pyStr ((lookupAssoc d "coordinate").getD PyVal.none)
        ++ "'].value = '" ++ pyStr ((lookupAssoc d "formula").getD PyVal.none) ++ "'")
        ∈ formulaCmdsPure d := by
      unfold formulaCmdsPure formulaCmds
      rw [if_pos htruthy]
      simp
    have hmem : formulaCmdsPure d ∈ cells.map formulaCmdsPure :=
      List.mem_map_of_mem formulaCmdsPure hd
    unfold formulasOf
    exact List.mem_flatten.mpr ⟨formulaCmdsPure d, hmem, this⟩
  · intro cn orig dims aL
    exact scriptOf_formulas_last cn orig dims acc'.cmd_merges acc'.cmd_styles
      acc'.cmd_formulas aL

/-- Witness for C5 (amended) at a concrete formula-bearing cell. -/
theorem c5_formula_amended_witness :
    processCells ⟨initExporter, [], [], [], []⟩
        [[("coordinate", PyVal.str "A1"), ("row", PyVal.int 1), ("col", PyVal.int 1),
          ("formula", PyVal.str "=B1"), ("value", PyVal.str "X")]]
      = Except.ok ⟨initExporter, [],
          ["    format_cell(ws, 1, 1, \"\"\"X\"\"\", None, None, None, None)"],
          ["    ws['A1'].value = '=B1'"], []⟩
    ∧ ((∀ d ∈ [[("coordinate", PyVal.str "A1"), ("row", PyVal.int 1), ("col", PyVal.int 1),
          ("formula", PyVal.str "=B1"), ("value", PyVal.str "X")]],
        pyTruthyOpt (lookupAssoc d "formula") = true →
        ("    ws['" ++ pyStr ((lookupAssoc d "coordinate").getD PyVal.none)
          ++ "'].value = '" ++ pyStr ((lookupAssoc d "formula").getD PyVal.none) ++ "'")
          ∈ (⟨initExporter, [],
              ["    format_cell(ws, 1, 1, \"\"\"X\"\"\", None, None, None, None)"],
              ["    ws['A1'].value = '=B1'"], []⟩ : EmitAcc).cmd_formulas)
      ∧ (∀ clean_name original_name dims aL, ∃ pre post,
          scriptOf clean_name original_name dims
              (⟨initExporter, [],
                ["    format_cell(ws, 1, 1, \"\"\"X\"\"\", None, None, None, None)"],
                ["    ws['A1'].value = '=B1'"], []⟩ : EmitAcc).cmd_merges
              (⟨initExporter, [],
                ["    format_cell(ws, 1, 1, \"\"\"X\"\"\", None, None, None, None)"],
                ["    ws['A1'].value = '=B1'"], []⟩ : EmitAcc).cmd_styles
              (⟨initExporter, [],
                ["    format_cell(ws, 1, 1, \"\"\"X\"\"\", None, None, None, None)"],
                ["    ws['A1'].value = '=B1'"], []⟩ : EmitAcc).cmd_formulas aL
            = pre ++ (⟨initExporter, [],
                ["    format_cell(ws, 1, 1, \"\"\"X\"\"\", None, None, None, None)"],
                ["    ws['A1'].value = '=B1'"], []⟩ : EmitAcc).cmd_formulas ++ post
          ∧ ∀ l ∈ (⟨initExporter, [],
                ["    format_cell(ws, 1, 1, \"\"\"X\"\"\", None, None, None, None)"],
                ["    ws['A1'].value = '=B1'"], []⟩ : EmitAcc).cmd_styles, l ∈ pre)) :=
  ⟨rfl, c5_formula_amended initExporter _ _ rfl⟩

/-- C6 counterexample: the claim says a non-textual value (number,
boolean) is embedded as a literal with no surrounding quoting.  In fact
every value — textual or not — is interpolated into a triple-quoted string:
for `value = 5` the emitted statement carries `"""5"""`, a quoted string,
not a bare numeric literal. -/
theorem c6_value_counterexample :
    processCells ⟨initExporter, [], [], [], []⟩
        [[("coordinate", PyVal.str "A1"), ("row", PyVal.int 1), ("col", PyVal.int 1),
          ("value", PyVal.int 5)]]
      = Except.ok ⟨initExporter, [],
          ["    format_cell(ws, 1, 1, \"\"\"5\"\"\", None, None, None, None)"],
          [], []⟩
    ∧ pyStr (PyVal.int 5) = "5" := ⟨rfl, rfl⟩

/-- C6 (amended): for every processed record (with or without formula) one
combined statement is emitted whose value argument is the Python `str` of
the record's value wrapped in triple quotes — textual values therefore
appear verbatim inside the triple quotes, and non-textual values appear as
their textual rendering inside the same quotes. -/
theorem c6_value_amended :
    ∀ (st : ExporterState) (cells : List PyDict) (acc' : EmitAcc),
      processCells ⟨st, [], [], [], []⟩ cells = Except.ok acc' →
      (∀ d ∈ cells, ∃ f a b fi,
        styleLine ((lookupAssoc d "row").getD PyVal.none)
          ((lookupAssoc d "col").getD PyVal.none) (valueOf d) f a b fi
          ∈ acc'.cmd_styles)
      ∧ (∀ row col v f a b fi, styleLine row col v f a b fi
          = "    format_cell(ws, " ++ pyStr row ++ ", " ++ pyStr col
            ++ ", \"\"\"" ++ pyStr v ++ "\"\"\", " ++ f ++ ", " ++ a
            ++ ", " ++ b ++ ", " ++ fi ++ ")")
      ∧ (∀ s, pyStr (PyVal.str s) = s) := by
  intro st cells acc' h
  exact ⟨processCells_styles_mem cells _ acc' h, fun _ _ _ _ _ _ _ => rfl, fun _ => rfl⟩

/-- Witness for C6 (amended) at a concrete numeric-valued cell. -/
theorem c6_value_amended_witness :
    processCells ⟨initExporter, [], [], [], []⟩
        [[("coordinate", PyVal.str "A1"), ("row", PyVal.int 1), ("col", PyVal.int 1),
          ("value", PyVal.int 5)]]
      = Except.ok ⟨initExporter, [],
          ["    format_cell(ws, 1, 1, \"\"\"5\"\"\", None, None, None, None)"],
          [], []⟩
    ∧ ((∀ d ∈ [[("coordinate", PyVal.str "A1"), ("row", PyVal.int 1),
          ("col", PyVal.int 1), ("value", PyVal.int 5)]], ∃ f a b fi,
        styleLine ((lookupAssoc d "row").getD PyVal.none)
          ((lookupAssoc d "col").getD PyVal.none) (valueOf d) f a b fi
          ∈ (⟨initExporter, [],
              ["    format_cell(ws, 1, 1, \"\"\"5\"\"\", None, None, None, None)"],
              [], []⟩ : EmitAcc).cmd_styles)
      ∧ (∀ row col v f a b fi, styleLine row col v f a b fi
          = "    format_cell(ws, " ++ pyStr row ++ ", " ++ pyStr col
            ++ ", \"\"\"" ++ pyStr v ++ "\"\"\", " ++ f ++ ", " ++ a
            ++ ", " ++ b ++ ", " ++ fi ++ ")")
      ∧ (∀ s, pyStr (PyVal.str s) = s)) :=
  ⟨rfl, c6_value_amended initExporter _ _ rfl⟩

/-- C7: merge suppression and ordering — on success the emitted merge
statements are exactly one per first-occurrence-deduplicated merge range of
the `is_merged` cells, in the order each range's owning cell was first
encountered, and any string range carried by some `is_merged` cell appears
exactly once among the deduplicated ranges. -/
theorem c7_merge_suppression :
    ∀ (st : ExporterState) (cells : List PyDict) (acc' : EmitAcc),
      processCells ⟨st, [], [], [], []⟩ cells = Except.ok acc' →
      acc'.cmd_merges = (dedupPy [] (triggers cells)).map
          (fun r => "    ws.merge_cells('" ++ pyStr r ++ "')")
      ∧ acc'.processed_merges = dedupPy [] (triggers cells)
      ∧ ∀ s : String, memPy (PyVal.str s) (triggers cells) = true →
          countPy (PyVal.str s) (dedupPy [] (triggers cells)) = 1 := by
  intro st cells acc' h
  have hm := processCells_merges cells _ acc' h
  rw [mergeFold_spec] at hm
  dsimp only at hm
  rw [List.nil_append, List.nil_append] at hm
  have h1 : acc'.cmd_merges = (dedupPy [] (triggers cells)).map
      (fun r => "    ws.merge_cells('" ++ pyStr r ++ "')") :=
    congrArg Prod.fst hm
  have h2 : acc'.processed_merges = dedupPy [] (triggers cells) :=
    congrArg Prod.snd hm
  refine ⟨h1, h2, ?_⟩
  intro s hs
  have hcond : memPy (PyVal.str s) (triggers cells) = true
      ∧ ¬ memPy (PyVal.str s) ([] : List PyVal) = true := ⟨hs, by simp [memPy]⟩
  rw [countPy_dedupPy_str, if_pos hcond]

/-- Witness for C7: two cells both carrying `merge_range = 'B1:B2'` yield a
single merge statement. -/
theorem c7_merge_suppression_witness :
    processCells ⟨initExporter, [], [], [], []⟩
        [[("coordinate", PyVal.str "B1"), ("row", PyVal.int 1), ("col", PyVal.int 2),
          ("is_merged", PyVal.bool true), ("merge_range", PyVal.str "B1:B2")],
         [("coordinate", PyVal.str "B2"), ("row", PyVal.int 2), ("col", PyVal.int 2),
          ("is_merged", PyVal.bool true), ("merge_range", PyVal.str "B1:B2")]]
      = Except.ok ⟨initExporter, [PyVal.str "B1:B2"],
          ["    format_cell(ws, 1, 2, \"\"\"\"\"\", None, None, None, None)",
           "    format_cell(ws, 2, 2, \"\"\"\"\"\", None, None, None, None)"],
          [], ["    ws.merge_cells('B1:B2')"]⟩
    ∧ ((⟨initExporter, [PyVal.str "B1:B2"],
          ["    format_cell(ws, 1, 2, \"\"\"\"\"\", None, None, None, None)",
           "    format_cell(ws, 2, 2, \"\"\"\"\"\", None, None, None, None)"],
          [], ["    ws.merge_cells('B1:B2')"]⟩ : EmitAcc).cmd_merges
        = (dedupPy [] (triggers
            [[("coordinate", PyVal.str "B1"), ("row", PyVal.int 1), ("col", PyVal.int 2),
              ("is_merged", PyVal.bool true), ("merge_range", PyVal.str "B1:B2")],
             [("coordinate", PyVal.str "B2"), ("row", PyVal.int 2), ("col", PyVal.int 2),
              ("is_merged", PyVal.bool true), ("merge_range", PyVal.str "B1:B2")]])).map
            (fun r => "    ws.merge_cells('" ++ pyStr r ++ "')")
      ∧ (⟨initExporter, [PyVal.str "B1:B2"],
          ["    format_cell(ws, 1, 2, \"\"\"\"\"\", None, None, None, None)",
           "    format_cell(ws, 2, 2, \"\"\"\"\"\", None, None, None, None)"],
          [], ["    ws.merge_cells('B1:B2')"]⟩ : EmitAcc).processed_merges
        = dedupPy [] (triggers
            [[("coordinate", PyVal.str "B1"), ("row", PyVal.int 1), ("col", PyVal.int 2),
              ("is_merged", PyVal.bool true), ("merge_range", PyVal.str "B1:B2")],
             [("coordinate", PyVal.str "B2"), ("row", PyVal.int 2), ("col", PyVal.int 2),
              ("is_merged", PyVal.bool true), ("merge_range", PyVal.str "B1:B2")]])
      ∧ ∀ s : String, memPy (PyVal.str s) (triggers
            [[("coordinate", PyVal.str "B1"), ("row", PyVal.int 1), ("col", PyVal.int 2),
              ("is_merged", PyVal.bool true), ("merge_range", PyVal.str "B1:B2")],
             [("coordinate", PyVal.str "B2"), ("row", PyVal.int 2), ("col", PyVal.int 2),
              ("is_merged", PyVal.bool true), ("merge_range", PyVal.str "B1:B2")]]) = true →
          countPy (PyVal.str s) (dedupPy [] (triggers
            [[("coordinate", PyVal.str "B1"), ("row", PyVal.int 1), ("col", PyVal.int 2),
              ("is_merged", PyVal.bool true), ("merge_range", PyVal.str "B1:B2")],
             [("coordinate", PyVal.str "B2"), ("row", PyVal.int 2), ("col", PyVal.int 2),
              ("is_merged", PyVal.bool true), ("merge_range", PyVal.str "B1:B2")]])) = 1) :=
  ⟨rfl, c7_merge_suppression initExporter _ _ rfl⟩

/-- C9 counterexample: the claim treats every field except `coordinate` as
optional and its absence as never an error, but `row` and `col` are
accessed by subscript: a record carrying only its coordinate raises
`KeyError: 'row'` and aborts the whole generation run. -/
theorem c9_optional_fields_counterexample :
    processCell ⟨initExporter, [], [], [], []⟩ [("coordinate", PyVal.str "A1")]
      = Except.error "KeyError: row"
    ∧ generate_full_workbook [("S", ⟨[[("coordinate", PyVal.str "A1")]], [], [], []⟩)]
      = Except.error "KeyError: row" := ⟨rfl, rfl⟩

/-- C9 (amended): every field other than `coordinate`, `row` and `col` is
optional; a record carrying only those three processes normally, leaves
the registry and merge state untouched, emits no formula and no merge
statement, and contributes only the combined `format_cell` statement with
the empty value and `None` for all four styles. -/
theorem c9_optional_fields_amended :
    ∀ (st : ExporterState) (pm : List PyVal) (cs cf cm : List String)
      (coord rowv colv : PyVal),
      processCell ⟨st, pm, cs, cf, cm⟩
          [("coordinate", coord), ("row", rowv), ("col", colv)]
        = Except.ok ⟨st, pm,
            cs ++ [styleLine rowv colv (PyVal.str "") "None" "None" "None" "None"],
            cf, cm⟩ := by
  intro st pm cs cf cm coord rowv colv
  have h : processCell ⟨st, pm, cs, cf, cm⟩
      [("coordinate", coord), ("row", rowv), ("col", colv)]
      = Except.ok ⟨st, pm,
          cs ++ [styleLine rowv colv (PyVal.str "") "None" "None" "None" "None"],
          cf ++ [], cm⟩ := rfl
  rw [h]
  simp

/-! ### Orchestrator structure lemmas -/

theorem data_append' (a b : String) : (a ++ b).data = a.data ++ b.data := rfl

/-- Recognizer for the per-sheet builder invocation lines of `main.py`. -/
def isBuildCall (l : String) : Bool := l.data.take 10 == "    build_".data

theorem isBuildCall_build (m : String) :
    isBuildCall ("    build_" ++ m ++ "(wb)") = true := by
  unfold isBuildCall
  rw [data_append', data_append']
  rw [List.append_assoc]
  rw [List.take_append_of_le_length (by decide)]
  decide

theorem isBuildCall_import (m : String) :
    isBuildCall ("from sheet_" ++ m ++ " import build_" ++ m) = false := by
  unfold isBuildCall
  rw [data_append', data_append', data_append']
  rw [List.append_assoc, List.append_assoc]
  rw [List.take_append_of_le_length (by decide)]
  decide

theorem filter_imports (mods : List String) :
    (mods.map (fun m => "from sheet_" ++ m ++ " import build_" ++ m)).filter isBuildCall
      = [] := by
  induction mods with
  | nil => rfl
  | cons m t ih => simp [List.filter_cons, isBuildCall_import, ih]

theorem filter_builds (mods : List String) :
    (mods.map (fun m => "    build_" ++ m ++ "(wb)")).filter isBuildCall
      = mods.map (fun m => "    build_" ++ m ++ "(wb)") := by
  induction mods with
  | nil => rfl
  | cons m t ih => simp [List.filter_cons, isBuildCall_build, ih]

/-- The builder invocation lines of `main.py` are exactly one per recorded
sheet module name, in recorded order. -/
theorem mainLines_filter (mods : List String) :
    (mainLines mods).filter isBuildCall
      = mods.map (fun m => "    build_" ++ m ++ "(wb)") := by
  unfold mainLines
  rw [List.filter_append, List.filter_append, List.filter_append, List.filter_append]
  rw [filter_imports, filter_builds]
  have h1 : List.filter isBuildCall
      ["# -*- coding: utf-8 -*-\n", "import openpyxl", "import sys\n",
       "from pathlib import Path\n", "sys.path.append(str(Path(__file__).parent))\n"]
      = [] := by decide
  have h2 : List.filter isBuildCall
      ["\ndef main():", "    wb = openpyxl.Workbook()",
       "    if 'Sheet' in wb.sheetnames: wb.remove(wb['Sheet'])"] = [] := by decide
  have h3 : List.filter isBuildCall
      ["    output_file = 'output.xlsx'", "    wb.save(output_file)",
       "    print(f\"[!] Success: '\x7boutput_file\x7d' generated.\")",
       "\nif __name__ == '__main__':", "    main()"] = [] := by decide
  rw [h1, h2, h3]
  simp

/-- Inversion of the sheet loop: recorded module names and write filenames
follow the sheets in order, one write per sheet. -/
theorem genSheets_spec :
    ∀ (wd : List (String × SheetContent)) (st stf : ExporterState)
      (mods : List String) (writes : List (String × String)),
      genSheets st wd = Except.ok (stf, mods, writes) →
      mods = wd.map (fun p => cleanNameOf p.1)
      ∧ writes.map Prod.fst = wd.map (fun p => "sheet_" ++ cleanNameOf p.1 ++ ".py")
      ∧ writes.length = wd.length := by
  intro wd
  induction wd with
  | nil =>
      intro st stf mods writes h
      injection h with h
      injection h with h1 h2
      injection h2 with h2 h3
      subst h2; subst h3
      exact ⟨rfl, rfl, rfl⟩
  | cons p t ih =>
      intro st stf mods writes h
      unfold genSheets at h
      obtain ⟨⟨st', lines⟩, h1, h2⟩ := exceptBind_ok h
      dsimp only at h2
      obtain ⟨⟨stf', mods', writes'⟩, h3, h4⟩ := exceptBind_ok h2
      dsimp only at h4
      injection h4 with h4
      injection h4 with h5 h6
      injection h6 with h6 h7
      subst h6; subst h7
      obtain ⟨hm, hw, hl⟩ := ih st' stf' mods' writes' h3
      refine ⟨?_, ?_, ?_⟩
      · simp [hm]
      · simp [hw]
      · simp [hl]

/-- Inversion of `generate_from`: the writes are the sheet writes followed
by `common.py` and `main.py`. -/
theorem generate_from_ok :
    ∀ (st0 : ExporterState) (wd : List (String × SheetContent))
      (writes : List (String × String)),
      generate_from st0 wd = Except.ok writes →
      ∃ st mods ws, genSheets st0 wd = Except.ok (st, mods, ws)
        ∧ writes = ws ++ [("common.py", joinSep "\n" (commonLines st)),
                          ("main.py", joinSep "\n" (mainLines mods))] := by
  intro st0 wd writes h
  unfold generate_from at h
  obtain ⟨⟨st, mods, ws⟩, h1, h2⟩ := exceptBind_ok h
  dsimp only at h2
  injection h2 with h2
  exact ⟨st, mods, ws, h1, h2.symm⟩

/-- C8: orchestrator output — a successful run writes exactly N+2 modules
(one per sheet in order, then the shared-styles module, then the entry
point), and the entry point module creates the workbook, removes the
default placeholder sheet, invokes every per-sheet builder in sheet order
between creation and persistence, saves to the fixed relative path
`output.xlsx`, and prints a success message. -/
theorem c8_orchestrator_output :
    ∀ (wd : List (String × SheetContent)) (writes : List (String × String)),
      generate_full_workbook wd = Except.ok writes →
      writes.length = wd.length + 2
      ∧ writes.map Prod.fst
          = wd.map (fun p => "sheet_" ++ cleanNameOf p.1 ++ ".py")
            ++ ["common.py", "main.py"]
      ∧ writes.getLast? = some ("main.py",
          joinSep "\n" (mainLines (wd.map (fun p => cleanNameOf p.1))))
      ∧ (mainLines (wd.map (fun p => cleanNameOf p.1))).filter isBuildCall
          = (wd.map (fun p => cleanNameOf p.1)).map (fun m => "    build_" ++ m ++ "(wb)")
      ∧ ∃ pre post,
          mainLines (wd.map (fun p => cleanNameOf p.1))
            = pre ++ (wd.map (fun p => cleanNameOf p.1)).map
                (fun m => "    build_" ++ m ++ "(wb)") ++ post
          ∧ "    wb = openpyxl.Workbook()" ∈ pre
          ∧ "    if 'Sheet' in wb.sheetnames: wb.remove(wb['Sheet'])" ∈ pre
          ∧ "    output_file = 'output.xlsx'" ∈ post
          ∧ "    wb.save(output_file)" ∈ post
          ∧ "    print(f\"[!] Success: '\x7boutput_file\x7d' generated.\")" ∈ post := by
  intro wd writes h
  obtain ⟨st, mods, ws, hg, hw⟩ := generate_from_ok initExporter wd writes h
  obtain ⟨hm, hwf, hl⟩ := genSheets_spec wd initExporter st mods ws hg
  subst hm
  refine ⟨?_, ?_, ?_, mainLines_filter _, ?_⟩
  · rw [hw]; simp [hl]
  · rw [hw]; simp [hwf]
  · rw [hw]
    have : ws ++ [("common.py", joinSep "\n" (commonLines st)),
        ("main.py", joinSep "\n" (mainLines (wd.map (fun p => cleanNameOf p.1))))]
        = (ws ++ [("common.py", joinSep "\n" (commonLines st))])
          ++ [("main.py", joinSep "\n" (mainLines (wd.map (fun p => cleanNameOf p.1))))] := by
      simp
    rw [this, List.getLast?_concat]
  · refine ⟨["# -*- coding: utf-8 -*-\n", "import openpyxl", "import sys\n",
        "from pathlib import Path\n", "sys.path.append(str(Path(__file__).parent))\n"]
        ++ (wd.map (fun p => cleanNameOf p.1)).map
            (fun m => "from sheet_" ++ m ++ " import build_" ++ m)
        ++ ["\ndef main():", "    wb = openpyxl.Workbook()",
            "    if 'Sheet' in wb.sheetnames: wb.remove(wb['Sheet'])"],
      ["    output_file = 'output.xlsx'", "    wb.save(output_file)",
       "    print(f\"[!] Success: '\x7boutput_file\x7d' generated.\")",
       "\nif __name__ == '__main__':", "    main()"], ?_, ?_, ?_, ?_, ?_, ?_⟩
    · unfold mainLines; simp
    · simp
    · simp
    · simp
    · simp
    · simp

/-- Witness workbook for C8. -/
def c8wb : List (String × SheetContent) := [("Sales", ⟨[], [], [], []⟩)]

/-- Witness writes for C8 (the run's actual output). -/
def c8writes : List (String × String) := (generate_full_workbook c8wb).toOption.getD []

/-- Witness for C8 at a concrete one-sheet workbook. -/
theorem c8_orchestrator_output_witness :
    generate_full_workbook c8wb = Except.ok c8writes
    ∧ (c8writes.length = c8wb.length + 2
      ∧ c8writes.map Prod.fst
          = c8wb.map (fun p => "sheet_" ++ cleanNameOf p.1 ++ ".py")
            ++ ["common.py", "main.py"]
      ∧ c8writes.getLast? = some ("main.py",
          joinSep "\n" (mainLines (c8wb.map (fun p => cleanNameOf p.1))))
      ∧ (mainLines (c8wb.map (fun p => cleanNameOf p.1))).filter isBuildCall
          = (c8wb.map (fun p => cleanNameOf p.1)).map (fun m => "    build_" ++ m ++ "(wb)")
      ∧ ∃ pre post,
          mainLines (c8wb.map (fun p => cleanNameOf p.1))
            = pre ++ (c8wb.map (fun p => cleanNameOf p.1)).map
                (fun m => "    build_" ++ m ++ "(wb)") ++ post
          ∧ "    wb = openpyxl.Workbook()" ∈ pre
          ∧ "    if 'Sheet' in wb.sheetnames: wb.remove(wb['Sheet'])" ∈ pre
          ∧ "    output_file = 'output.xlsx'" ∈ post
          ∧ "    wb.save(output_file)" ∈ post
          ∧ "    print(f\"[!] Success: '\x7boutput_file\x7d' generated.\")" ∈ post) :=
  ⟨rfl, c8_orchestrator_output c8wb c8writes rfl⟩

/-! ### Sanitized-name collisions (C10) -/

theorem sheet_filename_ne_common (c : String) :
    "sheet_" ++ c ++ ".py" ≠ "common.py" := by
  intro h
  have hh : ("sheet_" ++ c ++ ".py").data.head? = ("common.py" : String).data.head? := by
    rw [h]
  rw [data_append', data_append'] at hh
  have hs : ("sheet_" : String).data = ['s', 'h', 'e', 'e', 't', '_'] := rfl
  rw [hs] at hh
  simp at hh

theorem sheet_filename_ne_main (c : String) :
    "sheet_" ++ c ++ ".py" ≠ "main.py" := by
  intro h
  have hh : ("sheet_" ++ c ++ ".py").data.head? = ("main.py" : String).data.head? := by
    rw [h]
  rw [data_append', data_append'] at hh
  have hs : ("sheet_" : String).data = ['s', 'h', 'e', 'e', 't', '_'] := rfl
  rw [hs] at hh
  simp at hh

/-- One step of the sheet loop, inverted. -/
theorem genSheets_cons_inv (st : ExporterState) (p : String × SheetContent)
    (t : List (String × SheetContent)) (stf : ExporterState)
    (mods : List String) (writes : List (String × String))
    (h : genSheets st (p :: t) = Except.ok (stf, mods, writes)) :
    ∃ st' lines mods' writes',
      write_sheet_module st (cleanNameOf p.1) p.1 p.2 = Except.ok (st', lines)
      ∧ genSheets st' t = Except.ok (stf, mods', writes')
      ∧ mods = cleanNameOf p.1 :: mods'
      ∧ writes = ("sheet_" ++ cleanNameOf p.1 ++ ".py", joinSep "\n" lines) :: writes' := by
  obtain ⟨n, c⟩ := p
  unfold genSheets at h
  obtain ⟨⟨st', lines⟩, h1, h⟩ := exceptBind_ok h
  dsimp only at h
  obtain ⟨⟨stf', mods', writes'⟩, h2, h⟩ := exceptBind_ok h
  dsimp only at h
  injection h with h
  injection h with ha hb
  injection hb with hb hc
  subst ha
  exact ⟨st', lines, mods', writes', h1, h2, hb.symm, hc.symm⟩

theorem genSheets_nil_inv (st stf : ExporterState) (mods : List String)
    (writes : List (String × String))
    (h : genSheets st ([] : List (String × SheetContent)) = Except.ok (stf, mods, writes)) :
    stf = st ∧ mods = [] ∧ writes = [] := by
  injection h with h
  injection h with h1 h2
  injection h2 with h2 h3
  exact ⟨h1.symm, h2.symm, h3.symm⟩

/-- C10: two distinct sheet names with equal alphanumeric sanitizations are
written to the same module filename; the later write overwrites the
earlier in the final directory, the sanitized name is recorded twice, the
entry point imports and invokes the single surviving builder once per
original sheet, and only three distinct filenames exist instead of
N+2 = 4. -/
theorem c10_sanitized_collision :
    ∀ (n1 n2 : String) (c1 c2 : SheetContent) (writes : List (String × String)),
      n1 ≠ n2 → cleanNameOf n1 = cleanNameOf n2 →
      generate_full_workbook [(n1, c1), (n2, c2)] = Except.ok writes →
      ∃ m1 m2 cm mn,
        writes = [("sheet_" ++ cleanNameOf n1 ++ ".py", m1),
                  ("sheet_" ++ cleanNameOf n1 ++ ".py", m2),
                  ("common.py", cm), ("main.py", mn)]
        ∧ finalContents writes ("sheet_" ++ cleanNameOf n1 ++ ".py") = some m2
        ∧ ¬ (writes.map Prod.fst).Nodup
        ∧ (writes.map Prod.fst).dedup.length = 3
        ∧ mn = joinSep "\n" (mainLines [cleanNameOf n1, cleanNameOf n1])
        ∧ (mainLines [cleanNameOf n1, cleanNameOf n1]).filter isBuildCall
            = ["    build_" ++ cleanNameOf n1 ++ "(wb)",
               "    build_" ++ cleanNameOf n1 ++ "(wb)"] := by
  intro n1 n2 c1 c2 writes hne hclean h
  obtain ⟨st, mods, ws, hg, hw⟩ := generate_from_ok initExporter _ writes h
  obtain ⟨st1, lines1, mods1, ws1, hws1, hg1, hm1, hwr1⟩ :=
    genSheets_cons_inv initExporter (n1, c1) [(n2, c2)] st mods ws hg
  obtain ⟨st2, lines2, mods2, ws2, hws2, hg2, hm2, hwr2⟩ :=
    genSheets_cons_inv st1 (n2, c2) [] st mods1 ws1 hg1
  obtain ⟨-, hm0, hw0⟩ := genSheets_nil_inv st2 st mods2 ws2 hg2
  subst hm0; subst hw0
  subst hm2; subst hwr2
  subst hm1; subst hwr1
  subst hw
  refine ⟨joinSep "\n" lines1, joinSep "\n" lines2, joinSep "\n" (commonLines st),
    joinSep "\n" (mainLines [cleanNameOf n1, cleanNameOf n2]), ?_, ?_, ?_, ?_, ?_, ?_⟩
  · rw [← hclean]
    rfl
  · unfold finalContents
    rw [← hclean]
    simp only [List.cons_append, List.nil_append, List.reverse_cons, List.reverse_nil]
    simp only [lookupAssoc, List.nil_append]
    rw [if_neg (fun hc => sheet_filename_ne_main (cleanNameOf n1) hc.symm),
        if_neg (fun hc => sheet_filename_ne_common (cleanNameOf n1) hc.symm)]
    simp
  · rw [← hclean]
    intro hc
    simp [List.nodup_cons] at hc
  · rw [← hclean]
    have hsc := sheet_filename_ne_common (cleanNameOf n1)
    have hsm := sheet_filename_ne_main (cleanNameOf n1)
    have hcm : ("common.py" : String) ≠ "main.py" := by decide
    simp only [List.cons_append, List.nil_append, List.map_cons, List.map_nil]
    rw [List.dedup_cons_of_mem (by simp),
        List.dedup_cons_of_not_mem (by simp [hsc, hsm]),
        List.dedup_cons_of_not_mem (by simp [hcm]),
        List.dedup_cons_of_not_mem (by simp)]
    rfl
  · rw [← hclean]
  · rw [mainLines_filter]
    simp

/-- Witness workbook for C10: `"A!"` and `"A?"` both sanitize to `"A"`. -/
def c10wb : List (String × SheetContent) :=
  [("A!", ⟨[], [], [], []⟩), ("A?", ⟨[], [], [], []⟩)]

/-- Witness writes for C10 (the run's actual output). -/
def c10writes : List (String × String) := (generate_full_workbook c10wb).toOption.getD []

/-- Witness for C10 at two concrete colliding sheet names. -/
theorem c10_sanitized_collision_witness :
    ("A!" : String) ≠ "A?"
    ∧ cleanNameOf "A!" = cleanNameOf "A?"
    ∧ generate_full_workbook c10wb = Except.ok c10writes
    ∧ ∃ m1 m2 cm mn,
        c10writes = [("sheet_" ++ cleanNameOf "A!" ++ ".py", m1),
                  ("sheet_" ++ cleanNameOf "A!" ++ ".py", m2),
                  ("common.py", cm), ("main.py", mn)]
        ∧ finalContents c10writes ("sheet_" ++ cleanNameOf "A!" ++ ".py") = some m2
        ∧ ¬ (c10writes.map Prod.fst).Nodup
        ∧ (c10writes.map Prod.fst).dedup.length = 3
        ∧ mn = joinSep "\n" (mainLines [cleanNameOf "A!", cleanNameOf "A!"])
        ∧ (mainLines [cleanNameOf "A!", cleanNameOf "A!"]).filter isBuildCall
            = ["    build_" ++ cleanNameOf "A!" ++ "(wb)",
               "    build_" ++ cleanNameOf "A!" ++ "(wb)"] :=
  ⟨by decide, rfl, rfl,
    c10_sanitized_collision "A!" "A?" ⟨[], [], [], []⟩ ⟨[], [], [], []⟩ c10writes
      (by decide) rfl rfl⟩

/-! ### Flush ordering (C4) -/

/-- Insertion keeps the adjacent-ordering chain when the comparison is
total. -/
theorem chain_insertLe {α : Type} (le : α → α → Bool)
    (htot : ∀ a b, le a b = true ∨ le b a = true) (x : α) :
    ∀ l, List.Chain' (fun a b => le a b = true) l →
      List.Chain' (fun a b => le a b = true) (insertLe le x l) := by
  intro l
  induction l with
  | nil => intro _; simp [insertLe]
  | cons y t ih =>
      intro hc
      rw [List.chain'_cons'] at hc
      obtain ⟨hhead, htail⟩ := hc
      unfold insertLe
      by_cases hcond : (le x y && !le y x) = true
      · rw [if_pos hcond]
        rw [List.chain'_cons']
        refine ⟨?_, List.chain'_cons'.mpr ⟨hhead, htail⟩⟩
        intro z hz
        simp at hz
        subst hz
        exact (Bool.and_eq_true_iff.mp hcond).1
      · rw [if_neg hcond]
        rw [List.chain'_cons']
        have hyx : le y x = true := by
          rcases htot x y with h | h
          · rcases hb : le y x with _ | _
            · exact absurd (by simp [h, hb]) hcond
            · rfl
          · exact h
        refine ⟨?_, ih htail⟩
        intro z hz
        cases t with
        | nil =>
            simp [insertLe] at hz
            subst hz
            exact hyx
        | cons w t' =>
            unfold insertLe at hz
            by_cases hcw : (le x w && !le w x) = true
            · rw [if_pos hcw] at hz
              simp at hz
              subst hz
              exact hyx
            · rw [if_neg hcw] at hz
              simp at hz
              subst hz
              exact hhead w rfl

/-- The modelled Python `sorted` produces an ascending chain for the string
order used by `_write_common_styles`. -/
theorem chain_sortByLe (keys : List String) :
    List.Chain' (fun a b => pyStrLe a b = true) (sortByLe pyStrLe keys) := by
  induction keys with
  | nil => simp [sortByLe]
  | cons k t ih => exact chain_insertLe pyStrLe pyStrLe_total k _ ih

/-- Input of the C4 counterexample: one cell carrying both a border and a
bold font. -/
def c4cells : List PyDict :=
  [[("coordinate", PyVal.str "A1"), ("row", PyVal.int 1), ("col", PyVal.int 1),
    ("font_bold", PyVal.bool true),
    ("borders", PyVal.dict
      [("left", PyVal.dict [("style", PyVal.str "thin"), ("color", PyVal.str "FF000000")])])]]

/-- The emitter state the C4 counterexample run produces. -/
def c4acc : EmitAcc :=
  (processCells ⟨initExporter, [], [], [], []⟩ c4cells).toOption.getD
    ⟨initExporter, [], [], [], []⟩

/-- C4 counterexample: the claim fixes the category order of the
shared-styles output as fonts, fills, borders, alignments, but the
registry is iterated in its initialization order, so the BORDERS section
(with its declaration) is listed before the FONTS section. -/
theorem c4_flush_order_counterexample :
    processCells ⟨initExporter, [], [], [], []⟩ c4cells = Except.ok c4acc
    ∧ commonLines c4acc.st = commonHeader
        ++ ["\n# BORDERS",
            "BORDER_001 = Border(left=Side(border_style='thin', color='FF000000'))",
            "\n# FILLS",
            "\n# FONTS",
            "FONT_001 = Font(bold=True)",
            "\n# ALIGNMENTS"]
    ∧ List.indexOf "\n# BORDERS" (commonLines c4acc.st) = 20
    ∧ List.indexOf "\n# FONTS" (commonLines c4acc.st) = 23
    ∧ List.indexOf "\n# BORDERS" (commonLines c4acc.st)
        < List.indexOf "\n# FONTS" (commonLines c4acc.st) :=
  ⟨rfl, by decide, by decide, by decide, by decide⟩

/-- C4 (amended): the shared-styles output lists the declarations grouped
by category in the fixed order borders, fills, fonts, alignments (the
initialization order of the registry), and within each category the
identifiers appear in ascending lexicographic (string) order — which
coincides with ascending numeric order while a category holds at most 999
styles, identifiers being zero-padded to width 3. -/
theorem c4_flush_order_amended :
    ∀ st : ExporterState,
      commonLines st = commonHeader
        ++ sectionLines "BORDERS" st.style_registry_borders
        ++ sectionLines "FILLS" st.style_registry_fills
        ++ sectionLines "FONTS" st.style_registry_fonts
        ++ sectionLines "ALIGNMENTS" st.style_registry_alignments
      ∧ (∀ title styles, sectionLines title styles
          = ("\n# " ++ title) :: (sortByLe pyStrLe (styles.map Prod.fst)).map
              (fun id => id ++ " = " ++ ((lookupAssoc styles id).getD "")))
      ∧ ∀ keys : List String,
          List.Chain' (fun a b => pyStrLe a b = true) (sortByLe pyStrLe keys) := by
  intro st
  exact ⟨rfl, fun _ _ => rfl, chain_sortByLe⟩

/-! ### The style registry in isolation (C1, C2)

`runInterns` replays an arbitrary sequence of `_generate_style_id` calls —
the calls the sheet emitter makes across a whole run, in order — against a
fresh exporter.  `buildMap`/`buildCounters` are the specification-side
reconstruction of the registry contents from the first occurrences of each
lookup key. -/

/-- One interning request: the attribute dictionary and the category
prefix. -/
abbrev InternReq := PyDict × String

/-- The `style_map` lookup key of a request:
`prefix + "_" + md5(canonical)[:8]`. -/
def keyOfReq (r : InternReq) : String :=
  r.2 ++ "_" ++ styleHash (canonicalStyleStr r.1)

/-- Replay a request list through `_generate_style_id`, collecting the
returned identifiers. -/
def runInterns (st : ExporterState) : List InternReq → ExporterState × List String
  | [] => (st, [])
  | r :: t =>
      let (st', id) := generate_style_id st r.1 r.2
      let (stf, ids) := runInterns st' t
      (stf, id :: ids)

/-- Specification-side `style_map` reconstruction: each (already
deduplicated) request mints the next identifier of its category. -/
def buildMap (cs : List (String × Nat)) : List InternReq → List (String × String)
  | [] => []
  | r :: t =>
      (keyOfReq r, r.2 ++ "_" ++ pad3 (getCount cs r.2 + 1))
        :: buildMap (bumpCounter cs r.2) t

/-- Specification-side counter reconstruction. -/
def buildCounters (cs : List (String × Nat)) : List InternReq → List (String × Nat)
  | [] => cs
  | r :: t => buildCounters (bumpCounter cs r.2) t

/-- First occurrence of each lookup key, given the keys already seen. -/
def dedupReqs (seen : List String) : List InternReq → List InternReq
  | [] => []
  | r :: t =>
      if keyOfReq r ∈ seen then dedupReqs seen t
      else r :: dedupReqs (seen ++ [keyOfReq r]) t

theorem lookupAssoc_eq_none {α : Type} (l : List (String × α)) (k : String) :
    lookupAssoc l k = Option.none ↔ k ∉ l.map Prod.fst := by
  induction l with
  | nil => simp [lookupAssoc]
  | cons e t ih =>
      obtain ⟨k', v⟩ := e
      by_cases h : k' = k
      · subst h
        simp [lookupAssoc]
      · simp [lookupAssoc, h, ih, Ne.symm h]

theorem lookupAssoc_append_some {α : Type} {l₁ : List (String × α)}
    {k : String} {v : α} (l₂ : List (String × α))
    (h : lookupAssoc l₁ k = some v) : lookupAssoc (l₁ ++ l₂) k = some v := by
  induction l₁ with
  | nil => simp [lookupAssoc] at h
  | cons e t ih =>
      obtain ⟨k', w⟩ := e
      by_cases hk : k' = k
      · subst hk
        simp [lookupAssoc] at h ⊢
        exact h
      · simp [lookupAssoc, hk] at h ⊢
        exact ih h

theorem lookupAssoc_append_right {α : Type} {l₁ : List (String × α)} {k : String}
    (l₂ : List (String × α)) (h : k ∉ l₁.map Prod.fst) :
    lookupAssoc (l₁ ++ l₂) k = lookupAssoc l₂ k := by
  induction l₁ with
  | nil => simp
  | cons e t ih =>
      obtain ⟨k', w⟩ := e
      simp only [List.map_cons, List.mem_cons] at h
      push_neg at h
      have hne : k' ≠ k := Ne.symm h.1
      simp [lookupAssoc, hne, ih h.2]

theorem bumpCounter_keys (cs : List (String × Nat)) (p : String) :
    (bumpCounter cs p).map Prod.fst = cs.map Prod.fst := by
  induction cs with
  | nil => rfl
  | cons e t ih =>
      obtain ⟨k, v⟩ := e
      by_cases h : k = p <;> simp [bumpCounter, h, ih]

theorem lookupAssoc_isSome_iff_mem {α : Type} (l : List (String × α)) (k : String) :
    (lookupAssoc l k).isSome = true ↔ k ∈ l.map Prod.fst := by
  rcases h : lookupAssoc l k with _ | v
  · rw [lookupAssoc_eq_none] at h
    simp [h]
  · have : k ∈ l.map Prod.fst := by
      by_contra hc
      rw [← lookupAssoc_eq_none] at hc
      rw [h] at hc
      cases hc
    simp [this]

theorem bumpCounter_isSome (cs : List (String × Nat)) (p c : String) :
    (lookupAssoc (bumpCounter cs p) c).isSome = (lookupAssoc cs c).isSome := by
  rw [Bool.eq_iff_iff, lookupAssoc_isSome_iff_mem, lookupAssoc_isSome_iff_mem,
    bumpCounter_keys]

theorem bumpCounter_cons (k : String) (v : Nat) (t : List (String × Nat)) (p : String) :
    bumpCounter ((k, v) :: t) p
      = (if k = p then (k, v + 1) else (k, v)) :: bumpCounter t p := rfl

theorem getCount_bump_self (cs : List (String × Nat)) (p : String)
    (h : (lookupAssoc cs p).isSome = true) :
    getCount (bumpCounter cs p) p = getCount cs p + 1 := by
  induction cs with
  | nil => simp [lookupAssoc] at h
  | cons e t ih =>
      obtain ⟨k, v⟩ := e
      by_cases hk : k = p
      · subst hk
        rw [bumpCounter_cons, if_pos rfl]
        simp only [getCount, lookupAssoc, if_pos rfl, if_true, Option.getD_some]
      · have ht : (lookupAssoc t p).isSome = true := by
          simp only [lookupAssoc, if_neg hk] at h
          exact h
        rw [bumpCounter_cons, if_neg hk]
        simp only [getCount, lookupAssoc, if_neg hk]
        exact ih ht

theorem getCount_bump_other (cs : List (String × Nat)) (p c : String)
    (h : c ≠ p) : getCount (bumpCounter cs p) c = getCount cs c := by
  induction cs with
  | nil => rfl
  | cons e t ih =>
      obtain ⟨k, v⟩ := e
      by_cases hk : k = p
      · subst hk
        have hkc : k ≠ c := Ne.symm h
        rw [bumpCounter_cons, if_pos rfl]
        simp only [getCount, lookupAssoc, if_neg hkc]
        exact ih
      · by_cases hc : k = c
        · subst hc
          rw [bumpCounter_cons, if_neg hk]
          simp only [getCount, lookupAssoc, if_pos rfl, if_true]
        · rw [bumpCounter_cons, if_neg hk]
          simp only [getCount, lookupAssoc, if_neg hc]
          exact ih

theorem buildCounters_isSome (l : List InternReq) :
    ∀ (cs : List (String × Nat)) (c : String),
      (lookupAssoc (buildCounters cs l) c).isSome = (lookupAssoc cs c).isSome := by
  induction l with
  | nil => intro cs c; rfl
  | cons r t ih =>
      intro cs c
      rw [buildCounters, ih, bumpCounter_isSome]

theorem getCount_buildCounters (l : List InternReq) :
    ∀ (cs : List (String × Nat)) (c : String),
      (lookupAssoc cs c).isSome = true →
      getCount (buildCounters cs l) c
        = getCount cs c + (l.filter (fun r => r.2 = c)).length := by
  induction l with
  | nil => intro cs c _; simp [buildCounters]
  | cons r t ih =>
      intro cs c h
      by_cases hc : r.2 = c
      · rw [buildCounters, ih _ _ (by rw [bumpCounter_isSome]; exact h)]
        rw [hc, getCount_bump_self cs c h]
        simp [List.filter_cons, hc]
        omega
      · rw [buildCounters, ih _ _ (by rw [bumpCounter_isSome]; exact h)]
        rw [getCount_bump_other cs r.2 c (fun hcc => hc hcc.symm)]
        simp [List.filter_cons, hc]

theorem buildCounters_append (l₁ l₂ : List InternReq) :
    ∀ cs, buildCounters cs (l₁ ++ l₂) = buildCounters (buildCounters cs l₁) l₂ := by
  induction l₁ with
  | nil => intro cs; rfl
  | cons r t ih => intro cs; simp [buildCounters, ih]

theorem buildMap_append (l₁ l₂ : List InternReq) :
    ∀ cs, buildMap cs (l₁ ++ l₂)
      = buildMap cs l₁ ++ buildMap (buildCounters cs l₁) l₂ := by
  induction l₁ with
  | nil => intro cs; rfl
  | cons r t ih => intro cs; simp [buildMap, buildCounters, ih]

theorem buildMap_keys (l : List InternReq) :
    ∀ cs, (buildMap cs l).map Prod.fst = l.map keyOfReq := by
  induction l with
  | nil => intro cs; rfl
  | cons r t ih => intro cs; simp [buildMap, ih]

theorem dedupReqs_nodup :
    ∀ (l : List InternReq) (seen : List String),
      ((dedupReqs seen l).map keyOfReq).Nodup
      ∧ ∀ k ∈ (dedupReqs seen l).map keyOfReq, k ∉ seen := by
  intro l
  induction l with
  | nil => intro seen; simp [dedupReqs]
  | cons r t ih =>
      intro seen
      by_cases hk : keyOfReq r ∈ seen
      · rw [dedupReqs, if_pos hk]
        exact ih seen
      · rw [dedupReqs, if_neg hk]
        obtain ⟨hnd, hout⟩ := ih (seen ++ [keyOfReq r])
        constructor
        · simp only [List.map_cons, List.nodup_cons]
          refine ⟨?_, hnd⟩
          intro hc
          have := hout _ hc
          simp at this
        · intro k hkk
          simp only [List.map_cons, List.mem_cons] at hkk
          rcases hkk with hkk | hkk
          · subst hkk; exact hk
          · have := hout _ hkk
            intro hc
            exact this (by simp [hc])

theorem dedupReqs_covers :
    ∀ (l : List InternReq) (seen : List String) (r : InternReq),
      r ∈ l → keyOfReq r ∈ seen ∨ keyOfReq r ∈ (dedupReqs seen l).map keyOfReq := by
  intro l
  induction l with
  | nil => intro seen r h; cases h
  | cons x t ih =>
      intro seen r h
      rcases List.mem_cons.mp h with h | h
      · subst h
        by_cases hk : keyOfReq r ∈ seen
        · exact Or.inl hk
        · right
          rw [dedupReqs, if_neg hk]
          simp
      · by_cases hk : keyOfReq x ∈ seen
        · rw [dedupReqs, if_pos hk]
          exact ih seen r h
        · rw [dedupReqs, if_neg hk]
          rcases ih (seen ++ [keyOfReq x]) r h with hc | hc
          · simp only [List.mem_append, List.mem_singleton] at hc
            rcases hc with hc | hc
            · exact Or.inl hc
            · right; simp [hc]
          · right; simp [hc]

/-- The master invariant of the registry: replaying requests against a
state whose map and counters were reconstructed from the deduplicated
history extends that history by the first occurrences of the new request
keys; every returned identifier is the final map's value at the request's
lookup key. -/
theorem runInterns_spec :
    ∀ (reqs : List InternReq) (st : ExporterState) (D : List InternReq),
      st.style_map = buildMap initCounters D →
      st.style_counters = buildCounters initCounters D →
      ((D.map keyOfReq).Nodup) →
      (runInterns st reqs).1.style_map
          = buildMap initCounters (D ++ dedupReqs (D.map keyOfReq) reqs)
      ∧ (runInterns st reqs).1.style_counters
          = buildCounters initCounters (D ++ dedupReqs (D.map keyOfReq) reqs)
      ∧ (runInterns st reqs).2 = reqs.map (fun r =>
          (lookupAssoc (buildMap initCounters (D ++ dedupReqs (D.map keyOfReq) reqs))
            (keyOfReq r)).getD "")
      ∧ (((D ++ dedupReqs (D.map keyOfReq) reqs).map keyOfReq)).Nodup := by
  intro reqs
  induction reqs with
  | nil =>
      intro st D hmap hcnt hnd
      simp only [dedupReqs, List.append_nil, List.map_nil]
      exact ⟨hmap, hcnt, rfl, hnd⟩
  | cons r t ih =>
      intro st D hmap hcnt hnd
      by_cases hk : keyOfReq r ∈ D.map keyOfReq
      · -- dedup hit: the key is present, the state does not change
        have hsome : (lookupAssoc st.style_map (keyOfReq r)).isSome = true := by
          rw [hmap, lookupAssoc_isSome_iff_mem, buildMap_keys]
          exact hk
        rcases hlook : lookupAssoc st.style_map (keyOfReq r) with _ | id
        · rw [hlook] at hsome; cases hsome
        · have hlook' : lookupAssoc st.style_map
              (r.2 ++ "_" ++ styleHash (canonicalStyleStr r.1)) = some id := hlook
          have hgen : generate_style_id st r.1 r.2 = (st, id) := by
            unfold generate_style_id
            dsimp only
            rw [hlook']
          have hdedup : dedupReqs (D.map keyOfReq) (r :: t)
              = dedupReqs (D.map keyOfReq) t := by
            rw [dedupReqs, if_pos hk]
          obtain ⟨ih1, ih2, ih3, ih4⟩ := ih st D hmap hcnt hnd
          rcases hrun : runInterns st t with ⟨stf, ids⟩
          rw [hrun] at ih1 ih2 ih3
          rw [runInterns, hgen]
          dsimp only
          rw [hrun]
          dsimp only
          rw [hdedup]
          refine ⟨ih1, ih2, ?_, ih4⟩
          rw [List.map_cons, ← ih3]
          have hfin : lookupAssoc
              (buildMap initCounters (D ++ dedupReqs (D.map keyOfReq) t))
              (keyOfReq r) = some id := by
            rw [buildMap_append]
            apply lookupAssoc_append_some
            rw [← hmap]
            exact hlook
          rw [hfin]
          rfl
      · -- dedup miss: a fresh identifier is minted
        have hnone : lookupAssoc st.style_map (keyOfReq r) = Option.none := by
          rw [hmap, lookupAssoc_eq_none, buildMap_keys]
          exact hk
        have hnone' : lookupAssoc st.style_map
            (r.2 ++ "_" ++ styleHash (canonicalStyleStr r.1)) = Option.none := hnone
        have hgen : generate_style_id st r.1 r.2 =
            ({ st with
                style_counters := bumpCounter st.style_counters r.2
                style_map := st.style_map
                  ++ [(keyOfReq r, r.2 ++ "_" ++ pad3 (getCount st.style_counters r.2 + 1))] },
             r.2 ++ "_" ++ pad3 (getCount st.style_counters r.2 + 1)) := by
          unfold generate_style_id
          dsimp only
          rw [hnone']
          rfl
        have hDr : ((D ++ [r]).map keyOfReq).Nodup := by
          simp only [List.map_append, List.map_cons, List.map_nil]
          rw [List.nodup_append]
          refine ⟨hnd, List.nodup_singleton _, ?_⟩
          intro a ha hb
          simp only [List.mem_singleton] at hb
          subst hb
          exact hk ha
        have hmap' : ({ st with
              style_counters := bumpCounter st.style_counters r.2
              style_map := st.style_map
                ++ [(keyOfReq r, r.2 ++ "_" ++ pad3 (getCount st.style_counters r.2 + 1))] }
              : ExporterState).style_map
            = buildMap initCounters (D ++ [r]) := by
          dsimp only
          rw [hmap, hcnt, buildMap_append]
          rfl
        have hcnt' : ({ st with
              style_counters := bumpCounter st.style_counters r.2
              style_map := st.style_map
                ++ [(keyOfReq r, r.2 ++ "_" ++ pad3 (getCount st.style_counters r.2 + 1))] }
              : ExporterState).style_counters
            = buildCounters initCounters (D ++ [r]) := by
          dsimp only
          rw [hcnt, buildCounters_append]
          rfl
        obtain ⟨ih1, ih2, ih3, ih4⟩ := ih _ (D ++ [r]) hmap' hcnt' hDr
        have hseen : (D ++ [r]).map keyOfReq = D.map keyOfReq ++ [keyOfReq r] := by
          simp
        have hdedup : D ++ dedupReqs (D.map keyOfReq) (r :: t)
            = (D ++ [r]) ++ dedupReqs ((D ++ [r]).map keyOfReq) t := by
          rw [dedupReqs, if_neg hk, hseen]
          simp
        rcases hrun : runInterns ({ st with
            style_counters := bumpCounter st.style_counters r.2
            style_map := st.style_map
              ++ [(keyOfReq r, r.2 ++ "_" ++ pad3 (getCount st.style_counters r.2 + 1))] }
            : ExporterState) t with ⟨stf, ids⟩
        rw [hrun] at ih1 ih2 ih3
        rw [runInterns, hgen]
        dsimp only
        rw [hrun]
        dsimp only
        rw [hdedup]
        refine ⟨ih1, ih2, ?_, ih4⟩
        rw [List.map_cons, ← ih3]
        have hfin : lookupAssoc
            (buildMap initCounters ((D ++ [r]) ++ dedupReqs ((D ++ [r]).map keyOfReq) t))
            (keyOfReq r)
            = some (r.2 ++ "_" ++ pad3 (getCount st.style_counters r.2 + 1)) := by
          rw [buildMap_append]
          apply lookupAssoc_append_some
          rw [buildMap_append]
          rw [lookupAssoc_append_right _ (by rw [buildMap_keys]; exact hk)]
          rw [hcnt]
          simp [buildMap, lookupAssoc]
        rw [hfin]
        rfl

/-! ### Key and identifier structure -/

theorem strExt {a b : String} (h : a.data = b.data) : a = b := by
  cases a; cases b; cases h; rfl

theorem bytesLE_length (k : Nat) : ∀ n, (bytesLE k n).length = k := by
  induction k with
  | zero => intro n; rfl
  | succ m ih => intro n; simp [bytesLE, ih]

theorem md5Bytes_length (msg : List Nat) : (md5Bytes msg).length = 16 := by
  unfold md5Bytes
  rcases md5Chunks (1732584193, 4023233417, 2562383102, 271733878) (md5Pad msg)
    with ⟨a, b, c, d⟩
  simp [bytesLE_length]

theorem md5HexChars_length (msg : List Nat) : (md5HexChars msg).length = 32 := by
  unfold md5HexChars
  have h : ∀ l : List Nat, ((l.map hexByte).flatten).length = 2 * l.length := by
    intro l
    induction l with
    | nil => rfl
    | cons b t ih => simp [hexByte, ih]; omega
  rw [h, md5Bytes_length]

theorem styleHash_length (s : String) : (styleHash s).length = 8 := by
  unfold styleHash
  show ((md5HexChars (strBytes s)).take 8).length = 8
  rw [List.length_take, md5HexChars_length]
  rfl

/-- Decomposition of a lookup key `pfx_hash8` is unique when the hash parts
have the fixed length 8. -/
theorem key_parts_inj {p₁ p₂ h₁ h₂ : String} (h : p₁ ++ "_" ++ h₁ = p₂ ++ "_" ++ h₂)
    (hl₁ : h₁.length = 8) (hl₂ : h₂.length = 8) : p₁ = p₂ ∧ h₁ = h₂ := by
  have hd : (p₁.data ++ ['_']) ++ h₁.data = (p₂.data ++ ['_']) ++ h₂.data := by
    have := congrArg String.data h
    rw [data_append', data_append', data_append', data_append'] at this
    simpa using this
  have hlen : h₁.data.length = h₂.data.length := by
    show h₁.length = h₂.length
    rw [hl₁, hl₂]
  obtain ⟨hpre, hsuf⟩ := List.append_inj' hd hlen
  have hp : p₁.data = p₂.data := by
    have hlen2 : (['_'] : List Char).length = (['_'] : List Char).length := rfl
    exact (List.append_inj' hpre hlen2).1
  exact ⟨strExt hp, strExt hsuf⟩

theorem keyOfReq_cat {r : InternReq} {d : PyDict} {c : String}
    (h : keyOfReq r = keyOfReq (d, c)) : r.2 = c := by
  unfold keyOfReq at h
  exact (key_parts_inj h (styleHash_length _) (styleHash_length _)).1

/-- Identifiers of one category determine their sequence number. -/
theorem mkId_inj {c : String} {a b : Nat}
    (h : c ++ "_" ++ pad3 a = c ++ "_" ++ pad3 b) : a = b := by
  have hd : (c.data ++ ['_']) ++ (pad3 a).data = (c.data ++ ['_']) ++ (pad3 b).data := by
    have := congrArg String.data h
    rw [data_append', data_append', data_append', data_append'] at this
    simpa using this
  have := List.append_cancel_left hd
  exact pad3_injective (strExt this)

/-- Hash inequality forces key inequality within one category. -/
theorem keyOfReq_ne_of_hash_ne {d₁ d₂ : PyDict} {c : String}
    (h : styleHash (canonicalStyleStr d₁) ≠ styleHash (canonicalStyleStr d₂)) :
    keyOfReq (d₁, c) ≠ keyOfReq (d₂, c) := by
  intro hc
  exact h (key_parts_inj hc (styleHash_length _) (styleHash_length _)).2

/-! ### Identifier assignment facts -/

theorem lookupAssoc_cons_self {α : Type} (k : String) (v : α) (t : List (String × α)) :
    lookupAssoc ((k, v) :: t) k = some v := by
  simp [lookupAssoc]

theorem canonical_congr {d₁ d₂ : PyDict} (h : sortItems d₁ = sortItems d₂) :
    canonicalStyleStr d₁ = canonicalStyleStr d₂ := by
  unfold canonicalStyleStr
  rw [h]

theorem isSome_initCounters {c : String}
    (hc : c ∈ ["BORDER", "FILL", "FONT", "ALIGN"]) :
    (lookupAssoc initCounters c).isSome = true := by
  fin_cases hc <;> rfl

theorem getCount_initCounters {c : String}
    (hc : c ∈ ["BORDER", "FILL", "FONT", "ALIGN"]) :
    getCount initCounters c = 0 := by
  fin_cases hc <;> rfl

/-- The map value at the key of a deduplicated request: the category plus
the zero-padded successor of the count of earlier same-category entries. -/
theorem buildMap_lookup_split (cs : List (String × Nat)) (l₁ : List InternReq)
    (r : InternReq) (l₂ : List InternReq)
    (hnd : ((l₁ ++ r :: l₂).map keyOfReq).Nodup) :
    lookupAssoc (buildMap cs (l₁ ++ r :: l₂)) (keyOfReq r)
      = some (r.2 ++ "_" ++ pad3 (getCount (buildCounters cs l₁) r.2 + 1)) := by
  rw [buildMap_append]
  have hout : keyOfReq r ∉ (buildMap cs l₁).map Prod.fst := by
    rw [buildMap_keys]
    simp only [List.map_append, List.map_cons] at hnd
    have hdisj := List.disjoint_of_nodup_append hnd
    intro hc
    exact hdisj hc (by simp)
  rw [lookupAssoc_append_right _ hout, buildMap, lookupAssoc_cons_self]

theorem buildMap_values_ne (A B₁ B₂ : List InternReq) (r₁ r₂ : InternReq) (c : String)
    (hsome : (lookupAssoc initCounters c).isSome = true)
    (h₁ : r₁.2 = c) (h₂ : r₂.2 = c)
    (hnd : ((A ++ r₁ :: (B₁ ++ r₂ :: B₂)).map keyOfReq).Nodup) :
    ∃ v₁ v₂,
      lookupAssoc (buildMap initCounters (A ++ r₁ :: (B₁ ++ r₂ :: B₂))) (keyOfReq r₁) = some v₁
      ∧ lookupAssoc (buildMap initCounters (A ++ r₁ :: (B₁ ++ r₂ :: B₂))) (keyOfReq r₂) = some v₂
      ∧ v₁ ≠ v₂ := by
  have e₁ := buildMap_lookup_split initCounters A r₁ (B₁ ++ r₂ :: B₂) hnd
  have hassoc : A ++ r₁ :: (B₁ ++ r₂ :: B₂) = (A ++ r₁ :: B₁) ++ r₂ :: B₂ := by simp
  have hnd₂ : (((A ++ r₁ :: B₁) ++ r₂ :: B₂).map keyOfReq).Nodup := by
    rw [← hassoc]; exact hnd
  have e₂ := buildMap_lookup_split initCounters (A ++ r₁ :: B₁) r₂ B₂ hnd₂
  rw [← hassoc] at e₂
  refine ⟨_, _, e₁, e₂, ?_⟩
  rw [h₁, h₂]
  intro hv
  have hs₁ : (lookupAssoc (buildCounters initCounters A) c).isSome = true := by
    rw [buildCounters_isSome]; exact hsome
  have heq := mkId_inj hv
  have hb : getCount (buildCounters initCounters (A ++ r₁ :: B₁)) c
      = (getCount (buildCounters initCounters A) c + 1)
        + (B₁.filter (fun x => x.2 = c)).length := by
    rw [buildCounters_append]
    have hstep : buildCounters (buildCounters initCounters A) (r₁ :: B₁)
        = buildCounters (bumpCounter (buildCounters initCounters A) r₁.2) B₁ := rfl
    rw [hstep, h₁]
    rw [getCount_buildCounters _ _ _ (by rw [bumpCounter_isSome]; exact hs₁)]
    rw [getCount_bump_self _ _ hs₁]
  omega

/-- Every request's key has a first occurrence in the deduplicated run. -/
theorem req_rep_split (reqs : List InternReq) (r : InternReq) (hr : r ∈ reqs) :
    ∃ l₁ r' l₂, dedupReqs [] reqs = l₁ ++ r' :: l₂ ∧ keyOfReq r' = keyOfReq r := by
  rcases dedupReqs_covers reqs [] r hr with hc | hc
  · cases hc
  · obtain ⟨r', hr', hk⟩ := List.mem_map.mp hc
    obtain ⟨l₁, l₂, hsplit⟩ := List.append_of_mem hr'
    exact ⟨l₁, r', l₂, hsplit, hk⟩

/-- C1: style deduplication — within one run of a fresh exporter, two
interning requests of the same category resolve to the same identifier
whenever their attribute subsets agree entry-for-entry (equal sorted item
lists), and to different identifiers whenever their truncated MD5 digests
differ (the hash-collision caveat of the claim). -/
theorem c1_style_id_dedup :
    ∀ (reqs : List InternReq) (i j : Nat) (d₁ d₂ : PyDict) (c : String),
      c ∈ ["BORDER", "FILL", "FONT", "ALIGN"] →
      reqs[i]? = some (d₁, c) →
      reqs[j]? = some (d₂, c) →
      ((sortItems d₁ = sortItems d₂ ∧ d₁ ≠ []) →
        (runInterns initExporter reqs).2[i]? = (runInterns initExporter reqs).2[j]?)
      ∧ (styleHash (canonicalStyleStr d₁) ≠ styleHash (canonicalStyleStr d₂) →
        (runInterns initExporter reqs).2[i]? ≠ (runInterns initExporter reqs).2[j]?) := by
  intro reqs i j d₁ d₂ c hc hri hrj
  obtain ⟨hm, hcnt, hids, hnd⟩ := runInterns_spec reqs initExporter [] rfl rfl (by simp)
  simp only [List.map_nil, List.nil_append] at hids hnd
  have hgi : (runInterns initExporter reqs).2[i]?
      = some ((lookupAssoc (buildMap initCounters (dedupReqs [] reqs))
          (keyOfReq (d₁, c))).getD "") := by
    rw [hids, List.getElem?_map, hri]
    rfl
  have hgj : (runInterns initExporter reqs).2[j]?
      = some ((lookupAssoc (buildMap initCounters (dedupReqs [] reqs))
          (keyOfReq (d₂, c))).getD "") := by
    rw [hids, List.getElem?_map, hrj]
    rfl
  constructor
  · rintro ⟨hsort, -⟩
    have hkey : keyOfReq (d₁, c) = keyOfReq (d₂, c) := by
      unfold keyOfReq
      rw [canonical_congr hsort]
    rw [hgi, hgj, hkey]
  · intro hhash
    have hkey : keyOfReq (d₁, c) ≠ keyOfReq (d₂, c) := keyOfReq_ne_of_hash_ne hhash
    have hr₁ : (d₁, c) ∈ reqs := List.getElem?_mem hri
    have hr₂ : (d₂, c) ∈ reqs := List.getElem?_mem hrj
    obtain ⟨l₁, r₁', l₂, hsp, hk₁⟩ := req_rep_split reqs (d₁, c) hr₁
    have hcat₁ : r₁'.2 = c := keyOfReq_cat hk₁
    rcases dedupReqs_covers reqs [] (d₂, c) hr₂ with hcov | hcov
    · cases hcov
    · obtain ⟨r₂', hr₂', hk₂⟩ := List.mem_map.mp hcov
      have hcat₂ : r₂'.2 = c := keyOfReq_cat hk₂
      have hkne : keyOfReq r₁' ≠ keyOfReq r₂' := by
        rw [hk₁, hk₂]; exact hkey
      rw [hsp] at hr₂'
      rcases List.mem_append.mp hr₂' with hmem | hmem
      · -- the representative of d₂ comes first
        obtain ⟨a, b, hab⟩ := List.append_of_mem hmem
        have hshape : dedupReqs [] reqs = a ++ r₂' :: (b ++ r₁' :: l₂) := by
          rw [hsp, hab]; simp
        have hnd' : ((a ++ r₂' :: (b ++ r₁' :: l₂)).map keyOfReq).Nodup := by
          rw [← hshape]; exact hnd
        obtain ⟨v₂, v₁, e₂, e₁, hne⟩ := buildMap_values_ne a b l₂ r₂' r₁' c
          (isSome_initCounters hc) hcat₂ hcat₁ hnd'
        rw [← hshape] at e₁ e₂
        rw [hk₁] at e₁
        rw [hk₂] at e₂
        rw [hgi, hgj, e₁, e₂]
        simp only [Option.getD_some, ne_eq, Option.some.injEq]
        exact fun hv => hne (hv.symm)
      · rcases List.mem_cons.mp hmem with hmem | hmem
        · exact absurd (by rw [hmem]) hkne
        · obtain ⟨a, b, hab⟩ := List.append_of_mem hmem
          have hshape : dedupReqs [] reqs = l₁ ++ r₁' :: (a ++ r₂' :: b) := by
            rw [hsp, hab]
          have hnd' : ((l₁ ++ r₁' :: (a ++ r₂' :: b)).map keyOfReq).Nodup := by
            rw [← hshape]; exact hnd
          obtain ⟨v₁, v₂, e₁, e₂, hne⟩ := buildMap_values_ne l₁ a b r₁' r₂' c
            (isSome_initCounters hc) hcat₁ hcat₂ hnd'
          rw [← hshape] at e₁ e₂
          rw [hk₁] at e₁
          rw [hk₂] at e₂
          rw [hgi, hgj, e₁, e₂]
          simp only [Option.getD_some, ne_eq, Option.some.injEq]
          exact hne

def c1d₁ : PyDict := [("bold", PyVal.bool true)]

def c1d₂ : PyDict := [("italic", PyVal.bool true)]

def c1reqs : List InternReq := [(c1d₁, "FONT"), (c1d₂, "FONT")]

theorem c1_style_id_dedup_witness :
    ("FONT" ∈ ["BORDER", "FILL", "FONT", "ALIGN"]) ∧
    (c1reqs[0]? = some (c1d₁, "FONT")) ∧
    (c1reqs[1]? = some (c1d₂, "FONT")) ∧
    (((sortItems c1d₁ = sortItems c1d₂ ∧ c1d₁ ≠ []) →
        (runInterns initExporter c1reqs).2[0]? = (runInterns initExporter c1reqs).2[1]?)
      ∧ (styleHash (canonicalStyleStr c1d₁) ≠ styleHash (canonicalStyleStr c1d₂) →
        (runInterns initExporter c1reqs).2[0]? ≠ (runInterns initExporter c1reqs).2[1]?)) :=
  ⟨by decide, rfl, rfl, c1_style_id_dedup c1reqs 0 1 c1d₁ c1d₂ "FONT" (by decide) rfl rfl⟩

theorem indexOf_append_cons_self (K₁ K₂ : List String) (k : String) (h : k ∉ K₁) :
    (K₁ ++ k :: K₂).indexOf k = K₁.length := by
  induction K₁ with
  | nil => simp [List.indexOf_cons_self]
  | cons a t ih =>
      have hak : a ≠ k := fun he => h (he ▸ List.mem_cons_self a t)
      have hkt : k ∉ t := fun hm => h (List.mem_cons_of_mem a hm)
      rw [List.cons_append, List.indexOf_cons_ne _ hak, ih hkt, List.length_cons]

theorem generate_style_id_map_mono (st : ExporterState) (d : PyDict) (p k id : String)
    (h : lookupAssoc st.style_map k = some id) :
    lookupAssoc (generate_style_id st d p).1.style_map k = some id := by
  unfold generate_style_id
  dsimp only
  rcases hl : lookupAssoc st.style_map (p ++ "_" ++ styleHash (canonicalStyleStr d)) with _ | v
  · exact lookupAssoc_append_some _ h
  · exact h

theorem runInterns_map_mono :
    ∀ (l : List InternReq) (st : ExporterState) (k id : String),
      lookupAssoc st.style_map k = some id →
      lookupAssoc (runInterns st l).1.style_map k = some id := by
  intro l
  induction l with
  | nil => intro st k id h; exact h
  | cons r t ih =>
      intro st k id h
      rcases hg : generate_style_id st r.1 r.2 with ⟨st', id'⟩
      rcases h1 : runInterns st' t with ⟨sa, ia⟩
      rw [runInterns, hg]
      dsimp only
      rw [h1]
      dsimp only
      have hmono := generate_style_id_map_mono st r.1 r.2 k id h
      rw [hg] at hmono
      have := ih st' k id hmono
      rw [h1] at this
      exact this

theorem runInterns_append (l₁ l₂ : List InternReq) :
    ∀ st, (runInterns st (l₁ ++ l₂)).1 = (runInterns (runInterns st l₁).1 l₂).1 := by
  induction l₁ with
  | nil => intro st; rfl
  | cons r t ih =>
      intro st
      rcases hg : generate_style_id st r.1 r.2 with ⟨st', id'⟩
      rcases h1 : runInterns st' (t ++ l₂) with ⟨sa, ia⟩
      rcases h2 : runInterns st' t with ⟨sb, ib⟩
      rw [List.cons_append, runInterns, hg]
      dsimp only
      rw [h1]
      dsimp only
      conv_rhs => rw [runInterns, hg]
      dsimp only
      rw [h2]
      dsimp only
      have := ih st'
      rw [h1, h2] at this
      exact this

/-- C2: sequential per-category numbering and stability — on a fresh
exporter, the identifier returned for the request at position `p` of
category `c` is `c ++ "_" ++ pad3 n` where `n` is the 1-based rank of its
canonical key among the distinct category-`c` keys in first-seen order
(so each category counts independently of the others); and the
key-to-identifier map only grows along the run: an assignment visible
after the first `i` requests is still present, unchanged, after the first
`j ≥ i` requests (never recycled or renumbered). -/
theorem c2_sequential_numbering :
    ∀ (reqs : List InternReq) (c : String),
      c ∈ ["BORDER", "FILL", "FONT", "ALIGN"] →
      ((∀ (p : Nat) (d : PyDict), reqs[p]? = some (d, c) →
          (runInterns initExporter reqs).2[p]?
            = some (c ++ "_" ++ pad3
                ((((dedupReqs [] reqs).filter (fun r => r.2 = c)).map keyOfReq).indexOf
                  (keyOfReq (d, c)) + 1)))
        ∧ (∀ (i j : Nat) (k id : String), i ≤ j →
            lookupAssoc (runInterns initExporter (reqs.take i)).1.style_map k = some id →
            lookupAssoc (runInterns initExporter (reqs.take j)).1.style_map k = some id)) := by
  intro reqs c hc
  obtain ⟨hm, hcnt, hids, hnd⟩ := runInterns_spec reqs initExporter [] rfl rfl (by simp)
  simp only [List.map_nil, List.nil_append] at hids hnd
  constructor
  · intro p d hrp
    have hr : (d, c) ∈ reqs := List.getElem?_mem hrp
    obtain ⟨l₁, r', l₂, hsp, hk⟩ := req_rep_split reqs (d, c) hr
    have hcat : r'.2 = c := keyOfReq_cat hk
    have hnd' : ((l₁ ++ r' :: l₂).map keyOfReq).Nodup := by rw [← hsp]; exact hnd
    have hlook := buildMap_lookup_split initCounters l₁ r' l₂ hnd'
    have hcount : getCount (buildCounters initCounters l₁) c
        = (l₁.filter (fun r => r.2 = c)).length := by
      rw [getCount_buildCounters l₁ initCounters c (isSome_initCounters hc),
        getCount_initCounters hc, Nat.zero_add]
    have hfil : (dedupReqs [] reqs).filter (fun r => r.2 = c)
        = l₁.filter (fun r => r.2 = c) ++ r' :: l₂.filter (fun r => r.2 = c) := by
      rw [hsp, List.filter_append, List.filter_cons_of_pos]
      simp [hcat]
    have hnotmem : keyOfReq r' ∉ (l₁.filter (fun r => r.2 = c)).map keyOfReq := by
      intro hmem
      obtain ⟨x, hx, hkx⟩ := List.mem_map.mp hmem
      have hx' : x ∈ l₁ := List.mem_of_mem_filter hx
      have hin : keyOfReq r' ∈ l₁.map keyOfReq := List.mem_map.mpr ⟨x, hx', hkx⟩
      simp only [List.map_append, List.map_cons] at hnd'
      exact (List.disjoint_of_nodup_append hnd') hin (by simp)
    have hidx : (((dedupReqs [] reqs).filter (fun r => r.2 = c)).map keyOfReq).indexOf
        (keyOfReq (d, c)) = (l₁.filter (fun r => r.2 = c)).length := by
      rw [hfil, List.map_append, List.map_cons, ← hk,
        indexOf_append_cons_self _ _ _ hnotmem, List.length_map]
    have hgp : (runInterns initExporter reqs).2[p]?
        = some ((lookupAssoc (buildMap initCounters (dedupReqs [] reqs))
            (keyOfReq (d, c))).getD "") := by
      rw [hids, List.getElem?_map, hrp]
      rfl
    rw [hk] at hlook
    rw [← hsp] at hlook
    rw [hgp, hlook]
    simp only [Option.getD_some]
    rw [hcat, hcount, hidx]
  · intro i j k id hij h
    have hsplit : reqs.take i ++ (reqs.take j).drop i = reqs.take j := by
      have h1 : (reqs.take j).take i = reqs.take i := by
        rw [List.take_take, Nat.min_eq_left hij]
      rw [← h1, List.take_append_drop]
    rw [← hsplit, runInterns_append]
    exact runInterns_map_mono _ _ _ _ h

def c2fontA : PyDict := [("bold", PyVal.bool true)]

def c2fontB : PyDict := [("italic", PyVal.bool true)]

def c2fill : PyDict := [("color", PyVal.str "FF0000"), ("type", PyVal.str "solid")]

def c2reqs : List InternReq :=
  [(c2fontA, "FONT"), (c2fill, "FILL"), (c2fontB, "FONT"), (c2fontA, "FONT")]

example : (runInterns initExporter c2reqs).2
    = ["FONT_001", "FILL_001", "FONT_002", "FONT_001"] := by decide

theorem c2_sequential_numbering_witness :
    ("FONT" ∈ ["BORDER", "FILL", "FONT", "ALIGN"]) ∧
    ((∀ (p : Nat) (d : PyDict), c2reqs[p]? = some (d, "FONT") →
        (runInterns initExporter c2reqs).2[p]?
          = some ("FONT" ++ "_" ++ pad3
              ((((dedupReqs [] c2reqs).filter (fun r => r.2 = "FONT")).map keyOfReq).indexOf
                (keyOfReq (d, "FONT")) + 1)))
      ∧ (∀ (i j : Nat) (k id : String), i ≤ j →
          lookupAssoc (runInterns initExporter (c2reqs.take i)).1.style_map k = some id →
          lookupAssoc (runInterns initExporter (c2reqs.take j)).1.style_map k = some id)) :=
  ⟨by decide, c2_sequential_numbering c2reqs "FONT" (by decide)⟩
